import Mathlib

/-!
OBEX session engine (obexd/src/obex.c)

A shallow embedding of the session/command engine of `obexd/src/obex.c`, and
of `phonebook_set_folder` of `obexd/plugins/phonebook-dummy.c`.

* The session record, the request object and the static connection-id counter
  are explicit state (`State`); every function of the C file is a function on
  that state.
* OpenOBEX, GLib and the kernel are outside the file: their calls are either
  modelled directly on the request object (`OBEX_ObjectGetNextHeader`,
  `OBEX_ObjectReParseHeaders`, `OBEX_ObjectSetRsp`, `OBEX_ObjectAddHeader`),
  taken from the environment (`Env`: text conversion, `fstatvfs`, `mktime`)
  or given as the outcome of the call (`read`, `write`, `open`, `fstat`).
* Calls that leave the engine (registry notifications, command-table
  fulfillers, `close`, `fstatvfs`) are recorded, in order, in `State.log`.
* `struct obex_session` is declared in `obex.h`, not in `obex.c`. Its integer
  fields are carried as integers without a bound; every conversion that
  `obex.c` itself fixes (`guint newsize`, `guint16 mtu`, the `guint32`
  counter `cid`, `gint32 len`, `guint32 *size`, `guint64 free`) is written
  out with an explicit modulus, and the width of the MTU fields is a
  parameter (`Env.mtu_bits`).
-/

namespace Obexd

/-! ## Constants of openobex/obex_const.h and of obex.c -/

def OBEX_HDR_NAME : Nat := 0x01
def OBEX_HDR_TYPE : Nat := 0x42
def OBEX_HDR_TIME : Nat := 0x44
def OBEX_HDR_TARGET : Nat := 0x46
def OBEX_HDR_BODY : Nat := 0x48
def OBEX_HDR_WHO : Nat := 0x4A
def OBEX_HDR_LENGTH : Nat := 0xC3
def OBEX_HDR_CONNECTION : Nat := 0xCB

def OBEX_RSP_CONTINUE : Nat := 0x10
def OBEX_RSP_SUCCESS : Nat := 0x20
def OBEX_RSP_BAD_REQUEST : Nat := 0x40
def OBEX_RSP_FORBIDDEN : Nat := 0x43
def OBEX_RSP_NOT_IMPLEMENTED : Nat := 0x51
def OBEX_RSP_SERVICE_UNAVAILABLE : Nat := 0x53

def OBEX_CMD_CONNECT : Nat := 0x00
def OBEX_CMD_DISCONNECT : Nat := 0x01
def OBEX_CMD_PUT : Nat := 0x02
def OBEX_CMD_GET : Nat := 0x03
def OBEX_CMD_SETPATH : Nat := 0x05

def OBEX_EV_PROGRESS : Nat := 0
def OBEX_EV_REQHINT : Nat := 1
def OBEX_EV_REQ : Nat := 2
def OBEX_EV_REQDONE : Nat := 3
def OBEX_EV_LINKERR : Nat := 4
def OBEX_EV_PARSEERR : Nat := 5
def OBEX_EV_ABORT : Nat := 7
def OBEX_EV_STREAMEMPTY : Nat := 8
def OBEX_EV_STREAMAVAIL : Nat := 9
def OBEX_EV_UNEXPECTED : Nat := 10
def OBEX_EV_REQCHECK : Nat := 11

def OBEX_FL_FIT_ONE_PACKET : Nat := 0x01
def OBEX_FL_STREAM_DATA : Nat := 0x04
def OBEX_FL_STREAM_DATAEND : Nat := 0x08

def EINTR : Nat := 4
def EIO : Nat := 5

/-- Default MTUs. -/
def RX_MTU : Nat := 32767
def TX_MTU : Nat := 32767

def TARGET_SIZE : Nat := 16

def FTP_TARGET : List Nat :=
  [0xF9, 0xEC, 0x7B, 0xC4, 0x95, 0x3C, 0x11, 0xD2,
   0x98, 0x4E, 0x52, 0x54, 0x00, 0xDC, 0x9E, 0x09]

/-! ## Data model -/

/-- The union `obex_headerdata_t`, as the two views the engine uses: the
four-byte quantity `bq4` and the bytes that `bs` points to. -/
structure obex_headerdata where
  bq4 : Nat
  bs : List Nat
deriving DecidableEq, Repr

/-- One request header as `OBEX_ObjectGetNextHeader` hands it out:
identifier `hi`, value `hd`, length `hlen`. -/
structure obex_header where
  hi : Nat
  hd : obex_headerdata
  hlen : Nat
deriving DecidableEq, Repr

/-- One header handed to `OBEX_ObjectAddHeader`. -/
structure obex_txheader where
  hi : Nat
  hd : obex_headerdata
  hlen : Nat
  flags : Nat
deriving DecidableEq, Repr

/-- The request object `obex_object_t`: non-header data, request headers with
the read position of `OBEX_ObjectGetNextHeader`, the response codes last set,
the headers appended to the response, and whether body streaming was switched
on (`OBEX_ObjectReadStream(obex, obj, NULL)`). -/
structure obex_object where
  nonhdr : List Nat
  headers : List obex_header
  cursor : Nat
  rsp : Nat × Nat
  txhdrs : List obex_txheader
  streaming : Bool
deriving DecidableEq, Repr

/-- A `guint8 *` staging buffer: `NULL`, an allocated block with its
contents, or a non-`NULL` pointer to a block already released. -/
inductive bufptr where
  | null
  | live (bytes : List Nat)
  | dangling
deriving DecidableEq, Repr

/-- The fields of `struct obex_session` that obex.c reads or writes
(`cmds` lives in `Env`, `server` is never read). -/
structure obex_session where
  cid : Nat
  tx_mtu : Nat
  rx_mtu : Nat
  name : Option (List Nat)
  type : Option (List Nat)
  time : Int
  current_folder : Option (List Nat)
  buf : bufptr
  offset : Int
  size : Int
  fd : Int
  target : Option (List Nat)
  checked : Bool
deriving DecidableEq, Repr

/-- The slots of `struct obex_commands`. -/
inductive slot where
  | get
  | put
  | chkput
  | setpath
deriving DecidableEq, Repr

/-- Calls that leave the engine, recorded in the order they are made. A
command-table call carries the session as it is when the call is made. -/
inductive action where
  | register_transfer (id : Nat)
  | register_session (id : Nat)
  | emit_session_created (id : Nat)
  | emit_transfer_progress (id : Nat) (size offset : Int)
  | emit_transfer_completed (id : Nat) (success : Bool)
  | unregister_transfer (id : Nat)
  | fulfil (s : slot) (os : obex_session)
  | fstatvfs (fd : Int)
  | close (fd : Int)
  | write (fd : Int) (bytes : List Nat)
  | transport_disconnect
  | cancel_request
  | session_free
  | cleanup
deriving DecidableEq, Repr

/-- What the engine owns: the session (`OBEX_GetUserData`), the request
object, the static counter `cid` of obex.c, and the record of outside calls. -/
structure State where
  os : obex_session
  obj : obex_object
  cid : Nat
  log : List action
deriving DecidableEq, Repr

/-- A `void (*)(obex_t *, obex_object_t *)` fulfiller: it sees and may change
the session and the request object. -/
abbrev fulfiller := obex_session → obex_object → obex_session × obex_object

/-- The `gint (*chkput)(obex_t *, obex_object_t *)` slot. -/
abbrev checker := obex_session → obex_object → (obex_session × obex_object) × Int

/-- The command table `struct obex_commands`; an absent slot is `NULL`. -/
structure obex_commands where
  get : Option fulfiller
  put : Option fulfiller
  chkput : Option checker
  setpath : Option fulfiller

/-- The table `opp` of obex.c, over the fulfillers it names. -/
def opp (opp_get : fulfiller) (opp_chkput : checker) (opp_put : fulfiller) : obex_commands :=
  { get := some opp_get, chkput := some opp_chkput, put := some opp_put, setpath := none }

/-- The table `ftp` of obex.c, over the fulfillers it names. -/
def ftp (ftp_get ftp_put ftp_setpath : fulfiller) : obex_commands :=
  { get := some ftp_get, put := some ftp_put, chkput := none, setpath := some ftp_setpath }

/-- How the build configuration gives `tz_offset` its value in
`parse_iso8610`, before `mktime` runs. -/
inductive tz_config where
  | have_tm_gmtoff
  | have_timezone (timezone : Int)
  | neither
deriving DecidableEq, Repr

/-- The broken-down time `struct tm`, the fields `parse_iso8610` sets. -/
structure tm where
  tm_year : Int
  tm_mon : Int
  tm_mday : Int
  tm_hour : Int
  tm_min : Int
  tm_sec : Int
  tm_isdst : Int
deriving DecidableEq, Repr

/-- What surrounds one session: its command table (`os->cmds`), the width of
the MTU fields declared in obex.h, and the library and kernel functions the
engine calls. -/
structure Env where
  cmds : obex_commands
  mtu_bits : Nat
  /-- The call `g_convert(bs, hlen, "UTF8", "UTF16BE", ...)`; `none` is `NULL`. -/
  g_convert : List Nat → Option (List Nat)
  /-- The call `g_utf8_validate(bs, -1, NULL)` on the bytes before the first NUL. -/
  g_utf8_validate : List Nat → Bool
  /-- The call `fstatvfs(fd, &buf)`: `f_bsize` and `f_bavail`, or `none` when it fails. -/
  fstatvfs : Int → Option (Nat × Nat)
  tz : tz_config
  mktime : tm → Int

/-! ## OpenOBEX object calls -/

/-- Headers not yet handed out by `OBEX_ObjectGetNextHeader`. -/
def pending (obj : obex_object) : List obex_header :=
  obj.headers.drop obj.cursor

def OBEX_ObjectGetNextHeader (obj : obex_object) : Option (obex_header × obex_object) :=
  match pending obj with
  | [] => none
  | h :: _ => some (h, { obj with cursor := obj.cursor + 1 })

def OBEX_ObjectReParseHeaders (obj : obex_object) : obex_object :=
  { obj with cursor := 0 }

def OBEX_ObjectSetRsp (obj : obex_object) (rsp lastrsp : Nat) : obex_object :=
  { obj with rsp := (rsp, lastrsp) }

def OBEX_ObjectAddHeader (obj : obex_object) (hi : Nat) (hd : obex_headerdata)
    (hlen flags : Nat) : obex_object :=
  { obj with txhdrs := obj.txhdrs ++ [{ hi := hi, hd := hd, hlen := hlen, flags := flags }] }

/-- The read position after a loop has asked for every header. -/
def exhaust (obj : obex_object) : obex_object :=
  { obj with cursor := max obj.cursor obj.headers.length }

def set_rsp (st : State) (rsp lastrsp : Nat) : State :=
  { st with obj := OBEX_ObjectSetRsp st.obj rsp lastrsp }

def emit (st : State) (a : action) : State :=
  { st with log := st.log ++ [a] }

/-! ## cmd_connect -/

/-- The call `g_ntohs(nonhdr->mtu)` on the packed `{version, flags, mtu}`. -/
def connect_mtu (nonhdr : List Nat) : Nat :=
  (nonhdr.getD 2 0 % 256) * 256 + nonhdr.getD 3 0 % 256

/-- The statement `newsize = mtu - 200` with `guint newsize`. -/
def connect_newsize (mtu : Nat) : Nat :=
  (mtu + 2 ^ 32 - 200) % 2 ^ 32

def cmd_connect (env : Env) (st : State) : State :=
  if st.obj.nonhdr.length ≠ 4 then
    set_rsp st OBEX_RSP_FORBIDDEN OBEX_RSP_FORBIDDEN
  else
    let mtu := connect_mtu st.obj.nonhdr
    let newsize := connect_newsize mtu
    let cid := (st.cid + 1) % 2 ^ 32
    let os := { st.os with tx_mtu := newsize % 2 ^ env.mtu_bits, cid := cid }
    let st1 : State := emit { st with os := os, cid := cid } (action.register_transfer os.cid)
    match os.target with
    | none => set_rsp st1 OBEX_RSP_CONTINUE OBEX_RSP_SUCCESS
    | some target =>
      -- hi = hlen = 0; OBEX_ObjectGetNextHeader(obex, obj, &hi, &hd, &hlen);
      let nxt := OBEX_ObjectGetNextHeader st1.obj
      let hi := match nxt with | some (h, _) => h.hi | none => 0
      let hlen := match nxt with | some (h, _) => h.hlen | none => 0
      let hd : obex_headerdata := match nxt with | some (h, _) => h.hd | none => ⟨0, []⟩
      let obj1 := match nxt with | some (_, o) => o | none => st1.obj
      let st2 : State := { st1 with obj := obj1 }
      if hi ≠ OBEX_HDR_TARGET ∨ hlen ≠ TARGET_SIZE
          ∨ target.take TARGET_SIZE ≠ hd.bs.take TARGET_SIZE then
        set_rsp st2 OBEX_RSP_FORBIDDEN OBEX_RSP_FORBIDDEN
      else
        let st3 := emit (emit st2 (action.register_session cid)) (action.emit_session_created cid)
        let obj2 := OBEX_ObjectAddHeader st3.obj OBEX_HDR_WHO hd TARGET_SIZE OBEX_FL_FIT_ONE_PACKET
        let hd2 : obex_headerdata := { hd with bq4 := cid }
        let obj3 := OBEX_ObjectAddHeader obj2 OBEX_HDR_CONNECTION hd2 4 OBEX_FL_FIT_ONE_PACKET
        set_rsp { st3 with obj := obj3 } OBEX_RSP_CONTINUE OBEX_RSP_SUCCESS

/-! ## chk_cid -/

/-- The header loop of `chk_cid`: the first CONNECTION header of length 4
decides, and ends the loop. -/
def chk_cid_loop (cid : Nat) : List obex_header → Bool
  | [] => false
  | h :: rest =>
    if h.hi = OBEX_HDR_CONNECTION ∧ h.hlen = 4 then decide (h.hd.bq4 = cid)
    else chk_cid_loop cid rest

def chk_cid (st : State) (cid : Nat) : State × Bool :=
  match st.os.target with
  | none => (st, true)
  | some _ =>
    let ret := chk_cid_loop cid (pending st.obj)
    let st1 : State := { st with obj := OBEX_ObjectReParseHeaders st.obj }
    if ret = false then
      (set_rsp st1 OBEX_RSP_SERVICE_UNAVAILABLE OBEX_RSP_SERVICE_UNAVAILABLE, ret)
    else (st1, ret)

/-! ## parse_iso8610 -/

def is_space (c : Nat) : Bool := c = 32 || (9 ≤ c && c ≤ 13)

def is_digit (c : Nat) : Bool := 48 ≤ c && c ≤ 57

/-- Value of a run of decimal digits. -/
def digits_value (ds : List Nat) : Nat :=
  ds.foldl (fun a d => a * 10 + (d - 48)) 0

/-- One `%0Nu` conversion of `sscanf`: white space is skipped, then at most
`width` characters of an optionally signed decimal number are read. The
result is the value as it is found in the `int` field it is stored to, and
the input that is left; `none` when no digit can be read. -/
def scan_uint (width : Nat) (s : List Nat) : Option (Int × List Nat) :=
  let s1 := s.dropWhile is_space
  let neg := s1.head? = some 45
  let signed := s1.head? = some 45 || s1.head? = some 43
  let s2 := if signed then s1.drop 1 else s1
  let w := if signed then width - 1 else width
  let ds := (s2.take w).takeWhile is_digit
  if ds = [] then none
  else
    let v : Int := digits_value ds
    some (if neg then -v else v, s2.drop ds.length)

/-- The literal `T` of the format. -/
def scan_T (s : List Nat) : Option (List Nat) :=
  match s with
  | 84 :: t => some t
  | _ => none

/-- The call `sscanf(date, "%04u%02u%02uT%02u%02u%02u%c", ...)` when at least
six fields are read: the six numbers and whether `%c` found a character. -/
def scan_date (date : List Nat) : Option (Int × Int × Int × Int × Int × Int × Bool) := do
  let (y, r1) ← scan_uint 4 date
  let (mo, r2) ← scan_uint 2 r1
  let (d, r3) ← scan_uint 2 r2
  let r4 ← scan_T r3
  let (h, r5) ← scan_uint 2 r4
  let (mi, r6) ← scan_uint 2 r5
  let (s, r7) ← scan_uint 2 r6
  pure (y, mo, d, h, mi, s, !r7.isEmpty)

/-- The value of `tz_offset` before `mktime` is called. -/
def tz_offset (cfg : tz_config) (t : tm) : Int :=
  match cfg with
  | tz_config.have_tm_gmtoff => 0   -- tm.tm_gmtoff of the zeroed struct tm
  | tz_config.have_timezone timezone =>
    if t.tm_isdst > 0 then -timezone + 3600 else -timezone
  | tz_config.neither => 0

def parse_iso8610 (env : Env) (val : List Nat) (size : Nat) : Int :=
  -- g_strndup(val, size)
  let date := (val.take size).takeWhile (fun c => c ≠ 0)
  match scan_date date with
  | none => -1
  | some (y, mo, d, h, mi, s, seven) =>
    let t : tm := { tm_year := y - 1900, tm_mon := mo - 1, tm_mday := d,
                    tm_hour := h, tm_min := mi, tm_sec := s, tm_isdst := -1 }
    let off := tz_offset env.tz t
    let time := env.mktime t
    if seven then time + off else time

/-- The number of fields the `sscanf` call of `parse_iso8610` stores (`nr`
when it is not negative): conversions are made from left to right and the
count stops at the first one that fails, or at a missing `T`. -/
def scan_count (date : List Nat) : Nat :=
  match scan_uint 4 date with
  | none => 0
  | some (_, r1) =>
    match scan_uint 2 r1 with
    | none => 1
    | some (_, r2) =>
      match scan_uint 2 r2 with
      | none => 2
      | some (_, r3) =>
        match scan_T r3 with
        | none => 3
        | some r4 =>
          match scan_uint 2 r4 with
          | none => 3
          | some (_, r5) =>
            match scan_uint 2 r5 with
            | none => 4
            | some (_, r6) =>
              match scan_uint 2 r6 with
              | none => 5
              | some (_, r7) => if r7.isEmpty then 6 else 7

/-! ## Header scans of cmd_get, check_put and cmd_setpath -/

/-- The NAME case of the header switch in `cmd_get` and `check_put`. -/
def name_case (env : Env) (os : obex_session) (h : obex_header) : obex_session :=
  if os.name.isSome then os
  else if h.hlen = 0 then os
  else { os with name := env.g_convert (h.hd.bs.take h.hlen) }

/-- The TYPE case of the header switch in `cmd_get` and `check_put`. -/
def type_case (env : Env) (os : obex_session) (h : obex_header) : obex_session :=
  if os.type.isSome then os
  else if h.hlen = 0 then os
  else if h.hd.bs.get? (h.hlen - 1) ≠ some 0 then os
  else if env.g_utf8_validate (h.hd.bs.takeWhile (fun c => c ≠ 0)) = false then os
  else { os with type := some ((h.hd.bs.take h.hlen).takeWhile (fun c => c ≠ 0)) }

/-- Body of the `while` loop of `cmd_get` for one header. -/
def get_header (env : Env) (os : obex_session) (h : obex_header) : obex_session :=
  if h.hi = OBEX_HDR_NAME then name_case env os h
  else if h.hi = OBEX_HDR_TYPE then type_case env os h
  else os

/-- Body of the `while` loop of `check_put` for one header. -/
def put_header (env : Env) (os : obex_session) (h : obex_header) : obex_session :=
  if h.hi = OBEX_HDR_NAME then name_case env os h
  else if h.hi = OBEX_HDR_TYPE then type_case env os h
  else if h.hi = OBEX_HDR_BODY then { os with size := -1 }
  else if h.hi = OBEX_HDR_LENGTH then { os with size := (h.hd.bq4 % 2 ^ 32 : Nat) }
  else if h.hi = OBEX_HDR_TIME then { os with time := parse_iso8610 env h.hd.bs h.hlen }
  else os

/-- The `while` loop of `cmd_get` over the headers still to be read. -/
def get_headers (env : Env) (os : obex_session) (hs : List obex_header) : obex_session :=
  hs.foldl (get_header env) os

/-- The `while` loop of `check_put` over the headers still to be read. -/
def put_headers (env : Env) (os : obex_session) (hs : List obex_header) : obex_session :=
  hs.foldl (put_header env) os

/-- The `while` loop of `cmd_setpath`: it ends at the first NAME header. The
second component counts the headers handed out. -/
def setpath_headers (env : Env) (os : obex_session) : List obex_header → obex_session × Nat
  | [] => (os, 0)
  | h :: rest =>
    if h.hi = OBEX_HDR_NAME then
      if os.name.isSome then (os, 1)
      else if h.hlen = 0 then ({ os with name := some [] }, 1)
      else ({ os with name := env.g_convert (h.hd.bs.take h.hlen) }, 1)
    else
      let r := setpath_headers env os rest
      (r.1, r.2 + 1)

/-- The state of `cmd_get` when its header loop ends: type, name and buffer
are released, then every header is looked at. -/
def cmd_get_scan (env : Env) (st : State) : State :=
  let os0 := { st.os with type := none, name := none, buf := bufptr.null }
  { st with os := get_headers env os0 (pending st.obj), obj := exhaust st.obj }

/-- The state of `check_put` when its header loop ends: type and name are
released, then every header is looked at. -/
def check_put_scan (env : Env) (st : State) : State :=
  let os0 := { st.os with type := none, name := none }
  { st with os := put_headers env os0 (pending st.obj), obj := exhaust st.obj }

/-- The state of `cmd_setpath` when its header loop ends: the name is
released, then headers are looked at up to the first NAME header. -/
def cmd_setpath_scan (env : Env) (st : State) : State :=
  let os0 := { st.os with name := none }
  let sc := setpath_headers env os0 (pending st.obj)
  { st with os := sc.1, obj := { st.obj with cursor := st.obj.cursor + sc.2 } }

/-- A command-table call: recorded, then run on the session and the object. -/
def invoke (s : slot) (f : fulfiller) (st : State) : State :=
  let st1 := emit st (action.fulfil s st.os)
  let r := f st1.os st1.obj
  { st1 with os := r.1, obj := r.2 }

/-! ## cmd_get, cmd_setpath -/

def cmd_get (env : Env) (st : State) : State :=
  match env.cmds.get with
  | none => set_rsp st OBEX_RSP_NOT_IMPLEMENTED OBEX_RSP_NOT_IMPLEMENTED
  | some get =>
    let r := chk_cid st st.os.cid
    if r.2 = false then r.1
    else
      invoke slot.get get (cmd_get_scan env r.1)

def cmd_setpath (env : Env) (st : State) : State :=
  match env.cmds.setpath with
  | none => set_rsp st OBEX_RSP_NOT_IMPLEMENTED OBEX_RSP_NOT_IMPLEMENTED
  | some setpath =>
    let r := chk_cid st st.os.cid
    if r.2 = false then r.1
    else
      invoke slot.setpath setpath (cmd_setpath_scan env r.1)

/-! ## check_put, cmd_put -/

/-- The statement `free = buf.f_bsize * buf.f_bavail` with `guint64 free`. -/
def free_bytes (f_bsize f_bavail : Nat) : Nat :=
  (f_bsize * f_bavail) % 2 ^ 64

/-- The comparison `os->size > free`: the signed size is converted to the
unsigned 64-bit type of `free`. -/
def size_exceeds (size : Int) (free : Nat) : Bool :=
  decide ((size % 2 ^ 64).toNat > free)

def check_put (env : Env) (st : State) : State × Bool :=
  let st0 := check_put_scan env st
  let st1 : State := { st0 with obj := OBEX_ObjectReParseHeaders st0.obj }
  if st1.os.name.isNone then
    let st2 := set_rsp st1 OBEX_RSP_BAD_REQUEST OBEX_RSP_BAD_REQUEST
    ({ st2 with os := { st2.os with type := none } }, false)
  else
    match env.cmds.chkput with
    | none => ({ st1 with os := { st1.os with checked := true } }, true)
    | some chkput =>
      let st2 := emit st1 (action.fulfil slot.chkput st1.os)
      let r := chkput st2.os st2.obj
      let st3 : State := { st2 with os := r.1.1, obj := r.1.2 }
      if r.2 < 0 then
        (set_rsp st3 OBEX_RSP_FORBIDDEN OBEX_RSP_FORBIDDEN, false)
      else
        let st4 := emit st3 (action.fstatvfs st3.os.fd)
        match env.fstatvfs st3.os.fd with
        | none => (set_rsp st4 OBEX_RSP_FORBIDDEN OBEX_RSP_FORBIDDEN, false)
        | some (f_bsize, f_bavail) =>
          let free := free_bytes f_bsize f_bavail
          if size_exceeds st4.os.size free then
            (set_rsp st4 OBEX_RSP_FORBIDDEN OBEX_RSP_FORBIDDEN, false)
          else
            ({ st4 with os := { st4.os with checked := true } }, true)

def cmd_put (env : Env) (st : State) : State :=
  match env.cmds.put with
  | none => set_rsp st OBEX_RSP_NOT_IMPLEMENTED OBEX_RSP_NOT_IMPLEMENTED
  | some put =>
    let r := chk_cid st st.os.cid
    if r.2 = false then r.1
    else
      let st1 := r.1
      if st1.os.checked = false then
        let c := check_put env st1
        if c.2 = false then c.1
        else invoke slot.put put c.1
      else invoke slot.put put st1

/-! ## os_reset_session -/

def os_reset_session (st : State) : State :=
  let os1 := { st.os with name := none, type := none, buf := bufptr.null }
  let st1 : State := { st with os := os1 }
  let st2 : State :=
    if st1.os.fd > 0 then
      { emit st1 (action.close st1.os.fd) with os := { st1.os with fd := -1 } }
    else st1
  { st2 with os := { st2.os with offset := 0, size := 0 } }

/-! ## os_prepare_get, obex_write -/

/-- The call `g_new0(guint8, n)`: NULL for `n = 0`, otherwise a block of `n`
zero bytes. -/
def g_new0 (n : Nat) : bufptr :=
  if n = 0 then bufptr.null else bufptr.live (List.replicate n 0)

/-- The call `os_prepare_get(os, file, size)`, given what `open` returned and
what `fstat` reported (`st_size`, or `none` when it failed). The second
component is the value stored to `*size`; it is `none` exactly when the
function returns `FALSE`. -/
def os_prepare_get (st : State) (fd : Int) (st_size : Option Int) : State × Option Nat :=
  if fd < 0 then (st, none)
  else
    match st_size with
    | none => (emit st (action.close fd), none)
    | some sz =>
      let os1 := { st.os with fd := fd, offset := 0 }
      let os2 := if sz > 0 then { os1 with buf := g_new0 os1.tx_mtu } else os1
      ({ st with os := os2 }, some (sz % 2 ^ 32).toNat)

/-- Outcome of `read(os->fd, os->buf, os->tx_mtu)`: `errno`, or the bytes
placed at the start of the buffer (their number is the value returned). -/
inductive sys_read where
  | error (errno : Nat)
  | data (bytes : List Nat)
deriving DecidableEq, Repr

/-- The call `g_free(p)` without clearing `p`. -/
def g_free (p : bufptr) : bufptr :=
  match p with
  | bufptr.null => bufptr.null
  | bufptr.live _ => bufptr.dangling
  | bufptr.dangling => bufptr.dangling

/-- The buffer after `read` has stored `bytes` at its start. -/
def buf_store (p : bufptr) (bytes : List Nat) : bufptr :=
  match p with
  | bufptr.live old => bufptr.live (bytes ++ old.drop bytes.length)
  | q => q

/-- The bytes a buffer pointer gives access to. -/
def buf_bytes (p : bufptr) : List Nat :=
  match p with
  | bufptr.live b => b
  | _ => []

/-- Conversion of an integer to `gint32`. -/
def to_gint32 (x : Int) : Int :=
  (x + 2 ^ 31) % 2 ^ 32 - 2 ^ 31

/-- The part of `obex_write` from the label `add_header` on. -/
def obex_write_add_header (st : State) (len : Int) : State × Int :=
  if len = 0 then
    let obj := OBEX_ObjectAddHeader st.obj OBEX_HDR_BODY ⟨0, []⟩ 0 OBEX_FL_STREAM_DATAEND
    ({ st with obj := obj, os := { st.os with buf := bufptr.null } }, len)
  else
    let hd : obex_headerdata := { bq4 := 0, bs := buf_bytes st.os.buf }
    let os1 := { st.os with offset := st.os.offset + len }
    let obj := OBEX_ObjectAddHeader st.obj OBEX_HDR_BODY hd (len % 2 ^ 32).toNat
      OBEX_FL_STREAM_DATA
    ({ st with obj := obj, os := os1 }, len)

def obex_write (st : State) (rd : sys_read) : State × Int :=
  if st.os.fd < 0 then
    if st.os.buf = bufptr.null then (st, -( EIO : Int))
    else obex_write_add_header st (to_gint32 (st.os.size - st.os.offset))
  else
    match rd with
    | sys_read.error err =>
      ({ st with os := { st.os with buf := g_free st.os.buf } }, -(err : Int))
    | sys_read.data bytes =>
      obex_write_add_header { st with os := { st.os with buf := buf_store st.os.buf bytes } }
        (to_gint32 bytes.length)

/-! ## obex_read -/

/-- Outcome of one `write(os->fd, buffer + len, size - len)`. -/
inductive sys_write where
  | error (errno : Nat)
  | wrote (n : Nat)
deriving DecidableEq, Repr

/-- The `while (len < size)` loop of `obex_read`, over the outcomes of the
successive `write` calls. `none`: the outcomes given end while the loop is
still running. Otherwise the record of the writes made, and either the value
returned from inside the loop or the final `len`. -/
def obex_read_loop (fd : Int) (buffer : List Nat) (size : Int) :
    Int → List sys_write → Option (List action × (Int ⊕ Int))
  | len, ws =>
    if len < size then
      match ws with
      | [] => none
      | sys_write.error err :: rest =>
        if err = EINTR then obex_read_loop fd buffer size len rest
        else some ([], Sum.inl (-(err : Int)))
      | sys_write.wrote n :: rest =>
        match obex_read_loop fd buffer size (len + n) rest with
        | none => none
        | some (acts, r) =>
          some (action.write fd ((buffer.drop len.toNat).take n) :: acts, r)
    else some ([], Sum.inr len)

/-- The call `obex_read`, given what `OBEX_ObjectReadStream` returned
(`size` and the bytes `buffer` points to) and the outcomes of `write`. -/
def obex_read (st : State) (size : Int) (buffer : List Nat) (ws : List sys_write) :
    Option (State × Int) :=
  if size < 0 then some (st, -( EIO : Int))
  else if size > st.os.rx_mtu then some (st, -( EIO : Int))
  else if st.os.fd < 0 ∧ size > 0 then
    if st.os.buf ≠ bufptr.null then some (st, -( EIO : Int))
    else
      -- g_malloc0(os->rx_mtu); memcpy(os->buf, buffer, size)
      let fresh := List.replicate st.os.rx_mtu 0
      let b := buffer.take size.toNat ++ fresh.drop size.toNat
      some ({ st with os := { st.os with buf := bufptr.live b, offset := size } }, 0)
  else
    match obex_read_loop st.os.fd buffer size 0 ws with
    | none => none
    | some (acts, Sum.inl ret) => some ({ st with log := st.log ++ acts }, ret)
    | some (acts, Sum.inr len) =>
      some ({ st with log := st.log ++ acts,
                      os := { st.os with offset := st.os.offset + len } }, 0)

/-! ## obex_event -/

/-- What the transport and the kernel deliver while one event is handled. -/
structure Input where
  stream_size : Int
  stream_buf : List Nat
  read : sys_read
  writes : List sys_write
deriving DecidableEq, Repr

/-- The `OBEX_EV_REQDONE` case. -/
def ev_reqdone (st : State) (cmd : Nat) : State :=
  if cmd = OBEX_CMD_DISCONNECT then emit st action.transport_disconnect
  else if cmd = OBEX_CMD_PUT ∨ cmd = OBEX_CMD_GET then
    os_reset_session
      (emit st (action.emit_transfer_completed st.os.cid (decide (st.os.offset = st.os.size))))
  else st

/-- The `OBEX_EV_REQHINT` case; PUT falls through into the shared branch. -/
def ev_reqhint (st : State) (cmd : Nat) : State :=
  if cmd = OBEX_CMD_PUT then
    let st1 : State := { st with os := { st.os with checked := false },
                                 obj := { st.obj with streaming := true } }
    set_rsp st1 OBEX_RSP_CONTINUE OBEX_RSP_SUCCESS
  else if cmd = OBEX_CMD_GET ∨ cmd = OBEX_CMD_SETPATH ∨ cmd = OBEX_CMD_CONNECT
      ∨ cmd = OBEX_CMD_DISCONNECT then
    set_rsp st OBEX_RSP_CONTINUE OBEX_RSP_SUCCESS
  else set_rsp st OBEX_RSP_NOT_IMPLEMENTED OBEX_RSP_NOT_IMPLEMENTED

/-- The `OBEX_EV_REQCHECK` case. -/
def ev_reqcheck (env : Env) (st : State) (cmd : Nat) : State :=
  if cmd = OBEX_CMD_PUT then
    if env.cmds.put.isSome then (check_put env st).1 else st
  else st

/-- The `OBEX_EV_REQ` case. -/
def ev_req (env : Env) (st : State) (cmd : Nat) : State :=
  if cmd = OBEX_CMD_DISCONNECT then st
  else if cmd = OBEX_CMD_CONNECT then cmd_connect env st
  else if cmd = OBEX_CMD_SETPATH then cmd_setpath env st
  else if cmd = OBEX_CMD_GET then cmd_get env st
  else if cmd = OBEX_CMD_PUT then cmd_put env st
  else set_rsp st OBEX_RSP_NOT_IMPLEMENTED OBEX_RSP_NOT_IMPLEMENTED

/-- The event handler `obex_event`. `none` only when the `write` outcomes
given for a Stream-available event end before `obex_read` returns. -/
def obex_event (env : Env) (evt cmd : Nat) (inp : Input) (st : State) : Option State :=
  if evt = OBEX_EV_PROGRESS then
    some (emit st (action.emit_transfer_progress st.os.cid st.os.size st.os.offset))
  else if evt = OBEX_EV_ABORT then
    some (set_rsp (os_reset_session st) OBEX_RSP_SUCCESS OBEX_RSP_SUCCESS)
  else if evt = OBEX_EV_REQDONE then some (ev_reqdone st cmd)
  else if evt = OBEX_EV_REQHINT then some (ev_reqhint st cmd)
  else if evt = OBEX_EV_REQCHECK then some (ev_reqcheck env st cmd)
  else if evt = OBEX_EV_REQ then some (ev_req env st cmd)
  else if evt = OBEX_EV_STREAMAVAIL then
    match obex_read st inp.stream_size inp.stream_buf inp.writes with
    | none => none
    | some (st1, ret) => if ret < 0 then some (emit st1 action.cancel_request) else some st1
  else if evt = OBEX_EV_STREAMEMPTY then some (obex_write st inp.read).1
  else some st

/-! ## obex_session_free, obex_handle_destroy -/

/-- The call `obex_session_free(os)`: name, type, current folder and buffer
are released, a descriptor above 0 is closed, and the session itself is
released. -/
def obex_session_free (st : State) : State :=
  let st1 := if st.os.fd > 0 then emit st (action.close st.os.fd) else st
  emit st1 action.session_free

/-- The destroy callback `obex_handle_destroy` of the input watch. -/
def obex_handle_destroy (st : State) : State :=
  let st1 :=
    if st.os.fd ≥ 0 then
      emit st (action.emit_transfer_completed st.os.cid (decide (st.os.offset = st.os.size)))
    else st
  let st2 := emit st1 (action.unregister_transfer st1.os.cid)
  let st3 := obex_session_free st2
  emit st3 action.cleanup

/-! ## Accounting of the write loop -/

/-- The bytes handed to the kernel by the `write` calls of a record, in
order. -/
def written_bytes : List action → List Nat
  | [] => []
  | action.write _ bytes :: rest => bytes ++ written_bytes rest
  | _ :: rest => written_bytes rest

/-- The number of bytes a sequence of `write` outcomes reports as written. -/
def write_total : List sys_write → Nat
  | [] => 0
  | sys_write.wrote n :: rest => n + write_total rest
  | sys_write.error _ :: rest => write_total rest

/-- A sequence of `write` outcomes whose only errors are EINTR. -/
def only_eintr : List sys_write → Bool
  | [] => true
  | sys_write.wrote _ :: rest => only_eintr rest
  | sys_write.error e :: rest => decide (e = EINTR) && only_eintr rest

/-! ## Release of the staging buffer -/

/-- Whether the statement `if (os->buf) g_free(os->buf)` of `os_reset_session`
and `obex_session_free`, run in this state, hands `g_free` a block that has
already been released. -/
def releases_again (st : State) : Bool :=
  decide (st.os.buf = bufptr.dangling)

/-! ## Repeating the Stream-empty step -/

/-- The Stream-empty step (`obex_write`) repeated over the successive
outcomes of `read`, until a call returns a value that is not positive (end
of data, or an error) or the outcomes are used up. The values returned are
collected in order. -/
def stream_out : List sys_read → State → State × List Int
  | [], st => (st, [])
  | rd :: rest, st =>
    let r := obex_write st rd
    if r.2 ≤ 0 then (r.1, [r.2])
    else
      let q := stream_out rest r.1
      (q.1, r.2 :: q.2)

/-- What a response header amounts to on the wire: identifier, flags,
length, and the `hlen` bytes it carries. -/
def body_summary (t : obex_txheader) : Nat × Nat × Nat × List Nat :=
  (t.hi, t.flags, t.hlen, t.hd.bs.take t.hlen)

/-! ## phonebook-dummy.c: phonebook_set_folder -/

def EBADR : Nat := 53

/-- The call `g_path_get_basename(file_name)`: "." for the empty string, "/"
for a string of slashes, otherwise the component before the trailing slashes. -/
def g_path_get_basename (file_name : List Nat) : List Nat :=
  if file_name = [] then [46]
  else
    let rev := file_name.reverse.dropWhile (fun c => c = 47)
    if rev = [] then [47]
    else (rev.takeWhile (fun c => c ≠ 47)).reverse

/-- The search loop of `g_strrstr`: positions `p`, `p - 1`, ..., 0 are tried
in turn. -/
def g_strrstr_scan (haystack needle : List Nat) : Nat → Option Nat
  | 0 => if haystack.take needle.length = needle then some 0 else none
  | p + 1 =>
    if (haystack.drop (p + 1)).take needle.length = needle then some (p + 1)
    else g_strrstr_scan haystack needle p

/-- The call `g_strrstr(haystack, needle)`: the position of the last
occurrence of `needle`, or `none` for NULL. -/
def g_strrstr (haystack needle : List Nat) : Option Nat :=
  if needle.length = 0 then some 0
  else if haystack.length < needle.length then none
  else g_strrstr_scan haystack needle (haystack.length - needle.length)

/-- The variables of the element loop of `g_build_filename`. -/
structure build_state where
  result : List Nat
  is_first : Bool
  have_leading : Bool
  single_element : Option (List Nat)
  last_trailing : List Nat
deriving DecidableEq, Repr

/-- One pass of the element loop of `g_build_filename` with the separator
"/": leading and trailing slashes of the element are set aside, the leading
ones of the first element kept, and the rest appended after one slash. -/
def build_step (b : build_state) (element : List Nat) : build_state :=
  if element = [] then b
  else
    let start := element.dropWhile (fun c => c = 47)
    let leading := element.takeWhile (fun c => c = 47)
    let body := (start.reverse.dropWhile (fun c => c = 47)).reverse
    let trailing := if body = [] then element else start.drop body.length
    let b1 : build_state :=
      if b.have_leading = false then
        { b with
          single_element := if body = [] then some element else b.single_element
          result := b.result ++ leading
          have_leading := true
          last_trailing := trailing }
      else { b with single_element := none, last_trailing := trailing }
    if body = [] then b1
    else
      { b1 with
        result := (if b1.is_first = false then b1.result ++ [47] else b1.result) ++ body
        is_first := false }

/-- The call `g_build_filename(e1, ..., NULL)` on the elements before the
terminating NULL. -/
def g_build_filename (elements : List (List Nat)) : List Nat :=
  let b := elements.foldl build_step
    { result := [], is_first := true, have_leading := false, single_element := none,
      last_trailing := [] }
  match b.single_element with
  | some e => e
  | none => b.result ++ b.last_trailing

/-- The arguments of a variadic call up to the first NULL. -/
def va_elements : List (Option (List Nat)) → List (List Nat)
  | [] => []
  | none :: _ => []
  | some e :: rest => e :: va_elements rest

/-- What surrounds `phonebook_set_folder`: the global `root_folder` and the
answer of `is_dir` (a `stat` call) for a path. -/
structure phonebook_env where
  root_folder : Option (List Nat)
  is_dir : List Nat → Bool

/-- Outcome of `phonebook_set_folder`: the path returned with the value
stored to `*err` (`none`: the variable `ret` was never assigned), NULL with
the value stored to `*err`, or a call whose pointer arithmetic has no defined
result. -/
inductive set_folder_result where
  | path (relative : List Nat) (err : Option Int)
  | failed (err : Option Int)
  | undefined
deriving DecidableEq, Repr

/-- The part of `phonebook_set_folder` from the label `done` on. -/
def set_folder_done (pb : phonebook_env) (relative : Option (List Nat))
    (ret : Option Int) : set_folder_result :=
  match relative with
  | none => set_folder_result.failed ret
  | some rel =>
    let absolute := g_build_filename (va_elements [pb.root_folder, some rel])
    if pb.is_dir absolute = false then set_folder_result.failed (some (-(EBADR : Int)))
    else set_folder_result.path rel ret

def phonebook_set_folder (pb : phonebook_env) (current_folder new_folder : Option (List Nat))
    (flags : Nat) : set_folder_result :=
  let root := decide (current_folder = some [47])
  let child := match new_folder with
    | some n => decide (n ≠ [])
    | none => false
  if flags = 0x02 then
    if child = false then set_folder_done pb (some [47]) none
    else set_folder_done pb (some (g_build_filename (va_elements [current_folder, new_folder])))
      none
  else if flags = 0x03 then
    if root = true then set_folder_done pb none (some (-(EBADR : Int)))
    else
      match current_folder with
      | none => set_folder_result.undefined
      | some cur =>
        let tmp1 := g_path_get_basename cur
        match g_strrstr cur tmp1 with
        | none => set_folder_result.undefined
        | some tmp2 =>
          -- len = tmp2 - (current_folder + 1)
          let len : Int := (tmp2 : Int) - 1
          if len < 0 then set_folder_result.undefined
          else
            let base := if len = 0 then [47] else cur.take len.toNat
            if child = false then set_folder_done pb (some base) none
            else set_folder_done pb
              (some (g_build_filename (va_elements [some base, new_folder]))) none
  else set_folder_done pb none (some (-(EBADR : Int)))

/-- The absolute path whose components are `comps`: each one after a slash. -/
def folder_path (comps : List (List Nat)) : List Nat :=
  (comps.map (fun c => 47 :: c)).flatten

/-- The path one level above `folder_path comps`: "/" when one component is
left out of one, otherwise the path of all components but the last. -/
def parent_path (comps : List (List Nat)) : List Nat :=
  if comps.dropLast = [] then [47] else folder_path comps.dropLast

/-! ## Sample environment and states -/

/-- A fulfiller that returns at once. -/
def idle_fulfiller : fulfiller := fun os obj => (os, obj)

/-- A `chkput` that accepts and changes nothing. -/
def idle_checker : checker := fun os obj => ((os, obj), 0)

/-- UTF-8 bytes of one code point below 0x10000. -/
def utf8_of_unit (u : Nat) : List Nat :=
  if u < 0x80 then [u]
  else if u < 0x800 then [0xC0 + u / 64, 0x80 + u % 64]
  else [0xE0 + u / 4096, 0x80 + (u / 64) % 64, 0x80 + u % 64]

/-- A UTF-16BE to UTF-8 conversion for text without surrogate pairs: `none`
for an odd number of bytes or a surrogate code unit. -/
def sample_convert : List Nat → Option (List Nat)
  | [] => some []
  | [_] => none
  | hi :: lo :: rest =>
    let u := (hi % 256) * 256 + lo % 256
    if 0xD800 ≤ u ∧ u < 0xE000 then none
    else (sample_convert rest).map (fun t => utf8_of_unit u ++ t)

/-- An environment around a FileTransfer session: the table `ftp`, 16-bit MTU
fields, a file system with `free` bytes available in blocks of one byte. -/
def sample_ftp_env (free : Nat) : Env :=
  { cmds := ftp idle_fulfiller idle_fulfiller idle_fulfiller
    mtu_bits := 16
    g_convert := sample_convert
    g_utf8_validate := fun bs => bs.all (fun c => decide (c < 128))
    fstatvfs := fun _ => some (1, free)
    tz := tz_config.neither
    mktime := fun _ => 0 }

/-- An environment around an ObjectPush session: the table `opp`. -/
def sample_opp_env (free : Nat) : Env :=
  { sample_ftp_env free with cmds := opp idle_fulfiller idle_checker idle_fulfiller }

/-- The session `obex_session_start` creates for the service OBEX_FTP, with
connection id `cid`. -/
def sample_ftp_session (cid : Nat) : obex_session :=
  { cid := cid, tx_mtu := TX_MTU, rx_mtu := RX_MTU, name := none, type := none, time := 0
    current_folder := some [47], buf := bufptr.null, offset := 0, size := 0, fd := -1
    target := some FTP_TARGET, checked := false }

/-- The session `obex_session_start` creates for the service OBEX_OPUSH. -/
def sample_opp_session : obex_session :=
  { sample_ftp_session 0 with target := none }

/-- A request object as received: the read position at the first header, no
response header yet. -/
def sample_request (nonhdr : List Nat) (headers : List obex_header) : obex_object :=
  { nonhdr := nonhdr, headers := headers, cursor := 0, rsp := (0, 0), txhdrs := [],
    streaming := false }

def sample_state (os : obex_session) (obj : obex_object) (cid : Nat) : State :=
  { os := os, obj := obj, cid := cid, log := [] }

def sample_input : Input :=
  { stream_size := 0, stream_buf := [], read := sys_read.data [], writes := [] }

/-- A CONNECTION header carrying `id`. -/
def connection_header (id : Nat) : obex_header :=
  { hi := OBEX_HDR_CONNECTION, hd := ⟨id, []⟩, hlen := 4 }

/-- A NAME header carrying the UTF-16BE bytes `bs`. -/
def name_header (bs : List Nat) : obex_header :=
  { hi := OBEX_HDR_NAME, hd := ⟨0, bs⟩, hlen := bs.length }

/-- A LENGTH header declaring `n` bytes. -/
def length_header (n : Nat) : obex_header :=
  { hi := OBEX_HDR_LENGTH, hd := ⟨n, []⟩, hlen := 4 }

/-- A TARGET header carrying `bs`. -/
def target_header (bs : List Nat) : obex_header :=
  { hi := OBEX_HDR_TARGET, hd := ⟨0, bs⟩, hlen := bs.length }

/-- Days from 1970-01-01 to the civil date `y`-`m`-`d` (proleptic
Gregorian calendar). -/
def days_from_civil (y m d : Int) : Int :=
  let y1 := if m ≤ 2 then y - 1 else y
  let era := y1 / 400
  let yoe := y1 - era * 400
  let mp := if m > 2 then m - 3 else m + 9
  let doy := (153 * mp + 2) / 5 + d - 1
  let doe := yoe * 365 + yoe / 4 - yoe / 100 + doy
  era * 146097 + doe - 719468

/-- A `mktime` for a zone that is always `east` seconds east of UTC. -/
def sample_mktime (east : Int) (t : tm) : Int :=
  days_from_civil (t.tm_year + 1900) (t.tm_mon + 1) t.tm_mday * 86400
    + t.tm_hour * 3600 + t.tm_min * 60 + t.tm_sec - east

/-- An environment in a zone `east` seconds east of UTC, built with the
configuration `cfg`. -/
def sample_time_env (cfg : tz_config) (east : Int) : Env :=
  { sample_ftp_env 0 with tz := cfg, mktime := sample_mktime east }

/-- The broken-down time 2012-01-01 12:00:00 with daylight saving unknown. -/
def sample_noon : tm :=
  { tm_year := 112, tm_mon := 0, tm_mday := 1, tm_hour := 12, tm_min := 0, tm_sec := 0,
    tm_isdst := -1 }

/-- The bytes of an ASCII string. -/
def ascii (s : String) : List Nat := s.toList.map Char.toNat

/-- A phonebook rooted at "/home/u/phonebook" in which every path asked
about is a directory. -/
def sample_phonebook : phonebook_env :=
  { root_folder := some (ascii "/home/u/phonebook"), is_dir := fun _ => true }

/-! ## Theorems -/

/-- The loop of `chk_cid` finds nothing when no CONNECTION header of length
4 carries the id. -/
theorem chk_cid_loop_false (cid : Nat) (hs : List obex_header)
    (hno : ∀ h ∈ hs, h.hi = OBEX_HDR_CONNECTION → h.hlen = 4 → h.hd.bq4 ≠ cid) :
    chk_cid_loop cid hs = false := by
  induction hs with
  | nil => rfl
  | cons h rest ih =>
    unfold chk_cid_loop
    by_cases hc : h.hi = OBEX_HDR_CONNECTION ∧ h.hlen = 4
    · have hne := hno h (List.mem_cons_self _ _) hc.1 hc.2
      simp [hc, hne]
    · rw [if_neg hc]
      exact ih (fun x hx => hno x (List.mem_cons_of_mem _ hx))

theorem mem_pending (obj : obex_object) (h : obex_header) (hm : h ∈ pending obj) :
    h ∈ obj.headers :=
  List.mem_of_mem_drop hm

/-- With a target set and no CONNECTION header of length 4 carrying the id,
`chk_cid` rewinds the headers, answers service unavailable and returns FALSE. -/
theorem chk_cid_reject (st : State) (t : List Nat) (ht : st.os.target = some t)
    (hno : ∀ h ∈ st.obj.headers, h.hi = OBEX_HDR_CONNECTION → h.hlen = 4 →
      h.hd.bq4 ≠ st.os.cid) :
    chk_cid st st.os.cid =
      ({ st with obj := { st.obj with
            cursor := 0
            rsp := (OBEX_RSP_SERVICE_UNAVAILABLE, OBEX_RSP_SERVICE_UNAVAILABLE) } }, false) := by
  have hl : chk_cid_loop st.os.cid (pending st.obj) = false :=
    chk_cid_loop_false _ _ (fun h hm => hno h (mem_pending _ _ hm))
  simp [chk_cid, ht, hl, set_rsp, OBEX_ObjectSetRsp, OBEX_ObjectReParseHeaders]

/-- C1. On a FileTransfer session (target set, command table `ftp`), a GET,
PUT or SETPATH Request whose headers hold no CONNECTION header of length 4
with the session's connection id ends with the response service unavailable;
the session, the id counter and the record of outside calls (so no fulfiller
call) are as before, and only the response and the header read position of
the request object change. -/
theorem request_without_connection_id (env : Env) (inp : Input) (st : State) (cmd : Nat)
    (ftp_get ftp_put ftp_setpath : fulfiller)
    (hcmds : env.cmds = ftp ftp_get ftp_put ftp_setpath)
    (htarget : st.os.target = some FTP_TARGET)
    (hcmd : cmd = OBEX_CMD_GET ∨ cmd = OBEX_CMD_PUT ∨ cmd = OBEX_CMD_SETPATH)
    (hno : ∀ h ∈ st.obj.headers, h.hi = OBEX_HDR_CONNECTION → h.hlen = 4 →
      h.hd.bq4 ≠ st.os.cid) :
    obex_event env OBEX_EV_REQ cmd inp st =
      some { os := st.os, cid := st.cid, log := st.log
             obj := { st.obj with
               cursor := 0
               rsp := (OBEX_RSP_SERVICE_UNAVAILABLE, OBEX_RSP_SERVICE_UNAVAILABLE) } } := by
  have hrej := chk_cid_reject st FTP_TARGET htarget hno
  rcases hcmd with h | h | h
  · subst h
    simp [obex_event, ev_req, cmd_get, hcmds, ftp, hrej, OBEX_EV_REQ, OBEX_EV_PROGRESS,
      OBEX_EV_ABORT, OBEX_EV_REQDONE, OBEX_EV_REQHINT, OBEX_EV_REQCHECK, OBEX_CMD_GET,
      OBEX_CMD_DISCONNECT, OBEX_CMD_CONNECT, OBEX_CMD_SETPATH]
  · subst h
    simp [obex_event, ev_req, cmd_put, hcmds, ftp, hrej, OBEX_EV_REQ, OBEX_EV_PROGRESS,
      OBEX_EV_ABORT, OBEX_EV_REQDONE, OBEX_EV_REQHINT, OBEX_EV_REQCHECK, OBEX_CMD_GET,
      OBEX_CMD_PUT, OBEX_CMD_DISCONNECT, OBEX_CMD_CONNECT, OBEX_CMD_SETPATH]
  · subst h
    simp [obex_event, ev_req, cmd_setpath, hcmds, ftp, hrej, OBEX_EV_REQ, OBEX_EV_PROGRESS,
      OBEX_EV_ABORT, OBEX_EV_REQDONE, OBEX_EV_REQHINT, OBEX_EV_REQCHECK, OBEX_CMD_GET,
      OBEX_CMD_DISCONNECT, OBEX_CMD_CONNECT, OBEX_CMD_SETPATH]

/-- C1 at a GET whose CONNECTION header carries 8 on the session with id 7. -/
theorem request_without_connection_id_witness :
    obex_event (sample_ftp_env 0) OBEX_EV_REQ OBEX_CMD_GET sample_input
        (sample_state (sample_ftp_session 7)
          (sample_request [] [connection_header 8, name_header [0, 97]]) 7) =
      some { os := sample_ftp_session 7, cid := 7, log := []
             obj := { sample_request [] [connection_header 8, name_header [0, 97]] with
               cursor := 0
               rsp := (OBEX_RSP_SERVICE_UNAVAILABLE, OBEX_RSP_SERVICE_UNAVAILABLE) } } :=
  request_without_connection_id (sample_ftp_env 0) sample_input
    (sample_state (sample_ftp_session 7)
      (sample_request [] [connection_header 8, name_header [0, 97]]) 7)
    OBEX_CMD_GET idle_fulfiller idle_fulfiller idle_fulfiller rfl rfl (Or.inl rfl)
    (by decide)

/-- C2. On a FileTransfer session, a CONNECT Request with a four-byte
non-header payload whose first header is a TARGET header of length 16 holding
the FTP identifier: the session and the static counter both get the id
`counter + 1` (in the counter's `guint32` arithmetic), `register_transfer`,
`register_session` and `emit_session_created` are called with that id, a WHO
header with the 16 identifier bytes and then a CONNECTION header of length 4
with the id are appended, and the response is continue/success. -/
theorem connect_accepts_ftp_target (env : Env) (inp : Input) (st : State)
    (h : obex_header) (rest : List obex_header)
    (htarget : st.os.target = some FTP_TARGET)
    (hsize : st.obj.nonhdr.length = 4)
    (hcur : st.obj.cursor = 0)
    (hhdrs : st.obj.headers = h :: rest)
    (hhi : h.hi = OBEX_HDR_TARGET) (hlen : h.hlen = TARGET_SIZE)
    (hbs : h.hd.bs = FTP_TARGET) :
    obex_event env OBEX_EV_REQ OBEX_CMD_CONNECT inp st =
      some { os := { st.os with
               cid := (st.cid + 1) % 2 ^ 32
               tx_mtu := connect_newsize (connect_mtu st.obj.nonhdr) % 2 ^ env.mtu_bits }
             cid := (st.cid + 1) % 2 ^ 32
             log := st.log ++ [action.register_transfer ((st.cid + 1) % 2 ^ 32),
               action.register_session ((st.cid + 1) % 2 ^ 32),
               action.emit_session_created ((st.cid + 1) % 2 ^ 32)]
             obj := { st.obj with
               cursor := 1
               rsp := (OBEX_RSP_CONTINUE, OBEX_RSP_SUCCESS)
               txhdrs := st.obj.txhdrs ++
                 [{ hi := OBEX_HDR_WHO, hd := ⟨h.hd.bq4, FTP_TARGET⟩, hlen := 16,
                    flags := OBEX_FL_FIT_ONE_PACKET },
                  { hi := OBEX_HDR_CONNECTION, hd := ⟨(st.cid + 1) % 2 ^ 32, FTP_TARGET⟩,
                    hlen := 4, flags := OBEX_FL_FIT_ONE_PACKET }] } } := by
  have hp : pending st.obj = h :: rest := by simp [pending, hcur, hhdrs]
  have hd_eq : h.hd = ⟨h.hd.bq4, FTP_TARGET⟩ := by
    cases hh : h.hd with
    | mk q b => rw [hh] at hbs; simp at hbs; simp [hbs]
  simp [obex_event, ev_req, cmd_connect, hsize, htarget, OBEX_ObjectGetNextHeader, hp, hhi,
    hlen, hbs, emit, set_rsp, OBEX_ObjectSetRsp, OBEX_ObjectAddHeader, hcur, TARGET_SIZE,
    OBEX_EV_REQ, OBEX_EV_PROGRESS, OBEX_EV_ABORT, OBEX_EV_REQDONE, OBEX_EV_REQHINT,
    OBEX_EV_REQCHECK, OBEX_CMD_DISCONNECT, OBEX_CMD_CONNECT]
  rw [hd_eq]

/-- C2 at a CONNECT advertising an MTU of 1024 with the FTP target, on a
fresh FileTransfer session and counter 41. -/
theorem connect_accepts_ftp_target_witness :
    obex_event (sample_ftp_env 0) OBEX_EV_REQ OBEX_CMD_CONNECT sample_input
        (sample_state (sample_ftp_session 0)
          (sample_request [0x10, 0, 4, 0] [target_header FTP_TARGET]) 41) =
      some { os := { sample_ftp_session 0 with cid := 42, tx_mtu := 824 }
             cid := 42
             log := [action.register_transfer 42, action.register_session 42,
               action.emit_session_created 42]
             obj := { sample_request [0x10, 0, 4, 0] [target_header FTP_TARGET] with
               cursor := 1
               rsp := (OBEX_RSP_CONTINUE, OBEX_RSP_SUCCESS)
               txhdrs :=
                 [{ hi := OBEX_HDR_WHO, hd := ⟨0, FTP_TARGET⟩, hlen := 16,
                    flags := OBEX_FL_FIT_ONE_PACKET },
                  { hi := OBEX_HDR_CONNECTION, hd := ⟨42, FTP_TARGET⟩,
                    hlen := 4, flags := OBEX_FL_FIT_ONE_PACKET }] } } :=
  connect_accepts_ftp_target (sample_ftp_env 0) sample_input
    (sample_state (sample_ftp_session 0)
      (sample_request [0x10, 0, 4, 0] [target_header FTP_TARGET]) 41)
    (target_header FTP_TARGET) [] rfl rfl rfl rfl rfl rfl rfl

/-- C3, as stated, fails: a CONNECT on a FileTransfer session whose first
header is a NAME header is answered forbidden, yet the session's connection
id and the static counter have moved from 41 to 42 and `register_transfer`
has been called. -/
theorem connect_reject_registers_transfer :
    (sample_state (sample_ftp_session 41) (sample_request [0x10, 0, 4, 0]
        [name_header [0, 97]]) 41).os.target = some FTP_TARGET ∧
    (name_header [0, 97]).hi ≠ OBEX_HDR_TARGET ∧
    ∃ st1, obex_event (sample_ftp_env 0) OBEX_EV_REQ OBEX_CMD_CONNECT sample_input
        (sample_state (sample_ftp_session 41) (sample_request [0x10, 0, 4, 0]
          [name_header [0, 97]]) 41) = some st1 ∧
      st1.obj.rsp = (OBEX_RSP_FORBIDDEN, OBEX_RSP_FORBIDDEN) ∧
      st1.os.cid = 42 ∧ st1.cid = 42 ∧ st1.log = [action.register_transfer 42] ∧
      ¬ (st1.os.cid = 41 ∧ st1.cid = 41 ∧ st1.log = []) := by
  refine ⟨rfl, by decide, _, rfl, ?_⟩
  decide

/-- C3, amended. On a FileTransfer session, a CONNECT Request with a
four-byte non-header payload whose first header is missing, is not a TARGET
header, has a length other than 16 or differs from the FTP identifier: the
response is forbidden, no WHO or CONNECTION header is appended and neither
`register_session` nor `emit_session_created` is called; the id was assigned
before the check, so the session and the static counter hold `counter + 1`
and `register_transfer` has been called once with it. -/
theorem connect_rejects_bad_target (env : Env) (inp : Input) (st : State)
    (htarget : st.os.target = some FTP_TARGET)
    (hsize : st.obj.nonhdr.length = 4)
    (hcur : st.obj.cursor = 0)
    (hbad : ∀ h, st.obj.headers.head? = some h →
      h.hi ≠ OBEX_HDR_TARGET ∨ h.hlen ≠ TARGET_SIZE
        ∨ h.hd.bs.take TARGET_SIZE ≠ FTP_TARGET) :
    obex_event env OBEX_EV_REQ OBEX_CMD_CONNECT inp st =
      some { os := { st.os with
               cid := (st.cid + 1) % 2 ^ 32
               tx_mtu := connect_newsize (connect_mtu st.obj.nonhdr) % 2 ^ env.mtu_bits }
             cid := (st.cid + 1) % 2 ^ 32
             log := st.log ++ [action.register_transfer ((st.cid + 1) % 2 ^ 32)]
             obj := { st.obj with
               cursor := if st.obj.headers = [] then 0 else 1
               rsp := (OBEX_RSP_FORBIDDEN, OBEX_RSP_FORBIDDEN) } } := by
  have hft : FTP_TARGET.take TARGET_SIZE = FTP_TARGET := by decide
  cases hh : st.obj.headers with
  | nil =>
    have hp : pending st.obj = [] := by simp [pending, hh]
    simp [obex_event, ev_req, cmd_connect, hsize, htarget, OBEX_ObjectGetNextHeader, hp,
      emit, set_rsp, OBEX_ObjectSetRsp, hcur, OBEX_HDR_TARGET,
      OBEX_EV_REQ, OBEX_EV_PROGRESS, OBEX_EV_ABORT, OBEX_EV_REQDONE, OBEX_EV_REQHINT,
      OBEX_EV_REQCHECK, OBEX_CMD_DISCONNECT, OBEX_CMD_CONNECT]
  | cons h rest =>
    have hp : pending st.obj = h :: rest := by simp [pending, hcur, hh]
    have hb := hbad h (by simp [hh])
    have hcond : h.hi ≠ OBEX_HDR_TARGET ∨ h.hlen ≠ TARGET_SIZE
        ∨ FTP_TARGET.take TARGET_SIZE ≠ h.hd.bs.take TARGET_SIZE := by
      rcases hb with hb | hb | hb
      · exact Or.inl hb
      · exact Or.inr (Or.inl hb)
      · exact Or.inr (Or.inr (by rw [hft]; exact fun e => hb e.symm))
    simp only [obex_event, ev_req, cmd_connect, hsize, htarget, OBEX_ObjectGetNextHeader, hp,
      emit, set_rsp, OBEX_ObjectSetRsp, hcur,
      OBEX_EV_REQ, OBEX_EV_PROGRESS, OBEX_EV_ABORT, OBEX_EV_REQDONE, OBEX_EV_REQHINT,
      OBEX_EV_REQCHECK, OBEX_CMD_DISCONNECT, OBEX_CMD_CONNECT]
    simp [hcond]

/-- C3, amended, at a CONNECT whose TARGET header has 15 bytes. -/
theorem connect_rejects_bad_target_witness :
    obex_event (sample_ftp_env 0) OBEX_EV_REQ OBEX_CMD_CONNECT sample_input
        (sample_state (sample_ftp_session 0)
          (sample_request [0x10, 0, 4, 0] [target_header (FTP_TARGET.take 15)]) 41) =
      some { os := { sample_ftp_session 0 with cid := 42, tx_mtu := 824 }
             cid := 42
             log := [action.register_transfer 42]
             obj := { sample_request [0x10, 0, 4, 0] [target_header (FTP_TARGET.take 15)] with
               cursor := 1
               rsp := (OBEX_RSP_FORBIDDEN, OBEX_RSP_FORBIDDEN) } } :=
  connect_rejects_bad_target (sample_ftp_env 0) sample_input
    (sample_state (sample_ftp_session 0)
      (sample_request [0x10, 0, 4, 0] [target_header (FTP_TARGET.take 15)]) 41)
    rfl rfl rfl (by decide)

theorem connect_mtu_lt (nonhdr : List Nat) : connect_mtu nonhdr < 65536 := by
  unfold connect_mtu
  have h1 : nonhdr.getD 2 0 % 256 < 256 := Nat.mod_lt _ (by decide)
  have h2 : nonhdr.getD 3 0 % 256 < 256 := Nat.mod_lt _ (by decide)
  omega

/-- The field `tx_mtu` after `cmd_connect` on a four-byte payload, whatever
the target check says. -/
theorem cmd_connect_tx_mtu (env : Env) (st : State) (hsize : st.obj.nonhdr.length = 4) :
    (cmd_connect env st).os.tx_mtu =
      connect_newsize (connect_mtu st.obj.nonhdr) % 2 ^ env.mtu_bits := by
  unfold cmd_connect
  simp only [hsize, ne_eq, not_true_eq_false, if_false]
  cases ht : st.os.target with
  | none => simp [set_rsp, emit]
  | some t =>
    simp only []
    split <;> simp [set_rsp, emit]

/-- C4, as stated, fails: there is no clamp. A CONNECT advertising an MTU of
exactly 200 is accepted and leaves `tx_mtu = 0`; one advertising 100 is
accepted and leaves the wrapped value 65436 in a 16-bit MTU field. -/
theorem connect_tx_mtu_not_clamped :
    (cmd_connect (sample_opp_env 0)
        (sample_state sample_opp_session (sample_request [0x10, 0, 0, 200] []) 0)).obj.rsp
      = (OBEX_RSP_CONTINUE, OBEX_RSP_SUCCESS) ∧
    (cmd_connect (sample_opp_env 0)
        (sample_state sample_opp_session (sample_request [0x10, 0, 0, 200] []) 0)).os.tx_mtu
      = 0 ∧
    ¬ (1 ≤ (cmd_connect (sample_opp_env 0)
        (sample_state sample_opp_session (sample_request [0x10, 0, 0, 200] []) 0)).os.tx_mtu) ∧
    (cmd_connect (sample_opp_env 0)
        (sample_state sample_opp_session (sample_request [0x10, 0, 0, 100] []) 0)).obj.rsp
      = (OBEX_RSP_CONTINUE, OBEX_RSP_SUCCESS) ∧
    (cmd_connect (sample_opp_env 0)
        (sample_state sample_opp_session (sample_request [0x10, 0, 0, 100] []) 0)).os.tx_mtu
      = 65436 := by
  decide

/-- C4, amended. For every four-byte CONNECT payload advertising an MTU `m`
of at least 200, and an MTU field of at least 16 bits, the `tx_mtu` that
`cmd_connect` stores is exactly `m - 200`, with no lower clamp: it is zero
when `m = 200` and at least 1 exactly when `m > 200`. -/
theorem connect_tx_mtu_margin (env : Env) (st : State)
    (hsize : st.obj.nonhdr.length = 4)
    (hbits : 16 ≤ env.mtu_bits)
    (hm : 200 ≤ connect_mtu st.obj.nonhdr) :
    (cmd_connect env st).os.tx_mtu = connect_mtu st.obj.nonhdr - 200 ∧
    (1 ≤ (cmd_connect env st).os.tx_mtu ↔ 200 < connect_mtu st.obj.nonhdr) := by
  have hlt := connect_mtu_lt st.obj.nonhdr
  have hpow : 2 ^ 16 ≤ 2 ^ env.mtu_bits := Nat.pow_le_pow_right (by decide) hbits
  have hns : connect_newsize (connect_mtu st.obj.nonhdr) = connect_mtu st.obj.nonhdr - 200 := by
    unfold connect_newsize
    have : connect_mtu st.obj.nonhdr + 2 ^ 32 - 200
        = (connect_mtu st.obj.nonhdr - 200) + 2 ^ 32 := by omega
    rw [this, Nat.add_mod_right]
    exact Nat.mod_eq_of_lt (by omega)
  have hval : (cmd_connect env st).os.tx_mtu = connect_mtu st.obj.nonhdr - 200 := by
    rw [cmd_connect_tx_mtu env st hsize, hns]
    exact Nat.mod_eq_of_lt (by omega)
  refine ⟨hval, ?_⟩
  rw [hval]
  omega

/-- C4, amended, at an advertised MTU of 1024 in a 16-bit field. -/
theorem connect_tx_mtu_margin_witness :
    (cmd_connect (sample_opp_env 0)
        (sample_state sample_opp_session (sample_request [0x10, 0, 4, 0] []) 0)).os.tx_mtu
      = connect_mtu [0x10, 0, 4, 0] - 200 ∧
    (1 ≤ (cmd_connect (sample_opp_env 0)
        (sample_state sample_opp_session (sample_request [0x10, 0, 4, 0] []) 0)).os.tx_mtu
      ↔ 200 < connect_mtu [0x10, 0, 4, 0]) :=
  connect_tx_mtu_margin (sample_opp_env 0)
    (sample_state sample_opp_session (sample_request [0x10, 0, 4, 0] []) 0)
    rfl (by decide) (by decide)

/-! ### Header scans -/

theorem name_case_of_some (env : Env) (os : obex_session) (h : obex_header) (v : List Nat)
    (hn : os.name = some v) : name_case env os h = os := by
  simp [name_case, hn]

theorem type_case_name (env : Env) (os : obex_session) (h : obex_header) :
    (type_case env os h).name = os.name := by
  unfold type_case
  split_ifs <;> rfl

theorem type_case_checked (env : Env) (os : obex_session) (h : obex_header) :
    (type_case env os h).checked = os.checked := by
  unfold type_case
  split_ifs <;> rfl

theorem type_case_size (env : Env) (os : obex_session) (h : obex_header) :
    (type_case env os h).size = os.size := by
  unfold type_case
  split_ifs <;> rfl

theorem name_case_checked (env : Env) (os : obex_session) (h : obex_header) :
    (name_case env os h).checked = os.checked := by
  unfold name_case
  split_ifs <;> rfl

theorem name_case_size (env : Env) (os : obex_session) (h : obex_header) :
    (name_case env os h).size = os.size := by
  unfold name_case
  split_ifs <;> rfl

theorem put_header_name_of_some (env : Env) (os : obex_session) (h : obex_header)
    (v : List Nat) (hn : os.name = some v) : (put_header env os h).name = some v := by
  unfold put_header
  split_ifs
  · rw [name_case_of_some env os h v hn]; exact hn
  · rw [type_case_name]; exact hn
  all_goals exact hn

theorem get_header_name_of_some (env : Env) (os : obex_session) (h : obex_header)
    (v : List Nat) (hn : os.name = some v) : (get_header env os h).name = some v := by
  unfold get_header
  split_ifs
  · rw [name_case_of_some env os h v hn]; exact hn
  · rw [type_case_name]; exact hn
  · exact hn

/-- Once a name is set, the loop of `check_put` keeps it. -/
theorem put_headers_name_of_some (env : Env) (hs : List obex_header) (os : obex_session)
    (v : List Nat) (hn : os.name = some v) : (put_headers env os hs).name = some v := by
  induction hs generalizing os with
  | nil => exact hn
  | cons h rest ih =>
    exact ih (put_header env os h) (put_header_name_of_some env os h v hn)

/-- Once a name is set, the loop of `cmd_get` keeps it. -/
theorem get_headers_name_of_some (env : Env) (hs : List obex_header) (os : obex_session)
    (v : List Nat) (hn : os.name = some v) : (get_headers env os hs).name = some v := by
  induction hs generalizing os with
  | nil => exact hn
  | cons h rest ih =>
    exact ih (get_header env os h) (get_header_name_of_some env os h v hn)

theorem put_header_name_other (env : Env) (os : obex_session) (h : obex_header)
    (hh : h.hi ≠ OBEX_HDR_NAME) : (put_header env os h).name = os.name := by
  unfold put_header
  rw [if_neg hh]
  split_ifs
  · exact type_case_name env os h
  all_goals rfl

theorem get_header_name_other (env : Env) (os : obex_session) (h : obex_header)
    (hh : h.hi ≠ OBEX_HDR_NAME) : (get_header env os h).name = os.name := by
  unfold get_header
  rw [if_neg hh]
  split_ifs
  · exact type_case_name env os h
  · rfl

theorem put_headers_name_other (env : Env) (hs : List obex_header) (os : obex_session)
    (hh : ∀ x ∈ hs, x.hi ≠ OBEX_HDR_NAME) : (put_headers env os hs).name = os.name := by
  induction hs generalizing os with
  | nil => rfl
  | cons h rest ih =>
    have h1 := ih (put_header env os h) (fun x hx => hh x (List.mem_cons_of_mem _ hx))
    have h2 := put_header_name_other env os h (hh h (List.mem_cons_self _ _))
    simpa [put_headers, h2] using h1

theorem get_headers_name_other (env : Env) (hs : List obex_header) (os : obex_session)
    (hh : ∀ x ∈ hs, x.hi ≠ OBEX_HDR_NAME) : (get_headers env os hs).name = os.name := by
  induction hs generalizing os with
  | nil => rfl
  | cons h rest ih =>
    have h1 := ih (get_header env os h) (fun x hx => hh x (List.mem_cons_of_mem _ hx))
    have h2 := get_header_name_other env os h (hh h (List.mem_cons_self _ _))
    simpa [get_headers, h2] using h1

theorem put_header_first_name (env : Env) (os : obex_session) (h : obex_header)
    (hn : os.name = none) (hhi : h.hi = OBEX_HDR_NAME) (hlen : h.hlen ≠ 0) :
    (put_header env os h).name = env.g_convert (h.hd.bs.take h.hlen) := by
  simp [put_header, hhi, name_case, hn, hlen]

theorem get_header_first_name (env : Env) (os : obex_session) (h : obex_header)
    (hn : os.name = none) (hhi : h.hi = OBEX_HDR_NAME) (hlen : h.hlen ≠ 0) :
    (get_header env os h).name = env.g_convert (h.hd.bs.take h.hlen) := by
  simp [get_header, hhi, name_case, hn, hlen]

/-- The loop of `check_put` started without a name: the first NAME header,
when it is not empty and converts, gives the name, whatever follows it. -/
theorem put_headers_first_name (env : Env) (os : obex_session)
    (pre post : List obex_header) (h : obex_header) (v : List Nat)
    (hn : os.name = none)
    (hpre : ∀ x ∈ pre, x.hi ≠ OBEX_HDR_NAME)
    (hhi : h.hi = OBEX_HDR_NAME) (hlen : h.hlen ≠ 0)
    (hv : env.g_convert (h.hd.bs.take h.hlen) = some v) :
    (put_headers env os (pre ++ h :: post)).name = some v := by
  have h1 : (put_headers env os pre).name = none := by
    rw [put_headers_name_other env pre os hpre]; exact hn
  have h2 : (put_header env (put_headers env os pre) h).name = some v := by
    rw [put_header_first_name env _ h h1 hhi hlen]; exact hv
  have h3 := put_headers_name_of_some env post _ v h2
  simpa [put_headers, List.foldl_append] using h3

/-- The loop of `cmd_get` started without a name: the first NAME header,
when it is not empty and converts, gives the name, whatever follows it. -/
theorem get_headers_first_name (env : Env) (os : obex_session)
    (pre post : List obex_header) (h : obex_header) (v : List Nat)
    (hn : os.name = none)
    (hpre : ∀ x ∈ pre, x.hi ≠ OBEX_HDR_NAME)
    (hhi : h.hi = OBEX_HDR_NAME) (hlen : h.hlen ≠ 0)
    (hv : env.g_convert (h.hd.bs.take h.hlen) = some v) :
    (get_headers env os (pre ++ h :: post)).name = some v := by
  have h1 : (get_headers env os pre).name = none := by
    rw [get_headers_name_other env pre os hpre]; exact hn
  have h2 : (get_header env (get_headers env os pre) h).name = some v := by
    rw [get_header_first_name env _ h h1 hhi hlen]; exact hv
  have h3 := get_headers_name_of_some env post _ v h2
  simpa [get_headers, List.foldl_append] using h3

/-- The loop of `cmd_setpath` started without a name: the first NAME header,
when it is not empty and converts, gives the name; the loop ends there. -/
theorem setpath_headers_first_name (env : Env) (os : obex_session)
    (pre post : List obex_header) (h : obex_header) (v : List Nat)
    (hn : os.name = none)
    (hpre : ∀ x ∈ pre, x.hi ≠ OBEX_HDR_NAME)
    (hhi : h.hi = OBEX_HDR_NAME) (hlen : h.hlen ≠ 0)
    (hv : env.g_convert (h.hd.bs.take h.hlen) = some v) :
    (setpath_headers env os (pre ++ h :: post)).1.name = some v ∧
    (setpath_headers env os (pre ++ h :: post)).2 = pre.length + 1 := by
  induction pre with
  | nil => simp [setpath_headers, hhi, hn, hlen, hv]
  | cons x rest ih =>
    have hx : x.hi ≠ OBEX_HDR_NAME := hpre x (List.mem_cons_self _ _)
    have := ih (fun y hy => hpre y (List.mem_cons_of_mem _ hy))
    simp [setpath_headers, hx, this]

/-- On a request whose headers have not been read yet, a `chk_cid` that
returns TRUE leaves the state as it was. -/
theorem chk_cid_pass (st : State) (cid : Nat) (hcur : st.obj.cursor = 0)
    (hok : (chk_cid st cid).2 = true) : (chk_cid st cid).1 = st := by
  have hre : ({ st with obj := OBEX_ObjectReParseHeaders st.obj } : State) = st := by
    cases st with
    | mk os obj c l =>
      cases obj with
      | mk n hs cur r t sm =>
        simp only [OBEX_ObjectReParseHeaders] at *
        subst hcur
        rfl
  unfold chk_cid at hok ⊢
  cases ht : st.os.target with
  | none => simp
  | some t =>
    simp only [ht] at hok ⊢
    by_cases hl : chk_cid_loop cid (pending st.obj) = false
    · simp [hl] at hok
    · simp only [hl, if_false]
      exact hre

/-- The parts of the state that `chk_cid` never changes. -/
theorem chk_cid_frame (st : State) (cid : Nat) :
    (chk_cid st cid).1.os = st.os ∧ (chk_cid st cid).1.log = st.log ∧
    (chk_cid st cid).1.cid = st.cid ∧
    (chk_cid st cid).1.obj.headers = st.obj.headers := by
  unfold chk_cid
  cases ht : st.os.target with
  | none => simp
  | some t =>
    simp only []
    split_ifs <;> simp [set_rsp, OBEX_ObjectSetRsp, OBEX_ObjectReParseHeaders]

theorem pending_of_cursor_zero (obj : obex_object) (hcur : obj.cursor = 0) :
    pending obj = obj.headers := by
  simp [pending, hcur]

/-- C9. A request whose first NAME header is non-empty and converts from
UTF-16BE to `v`, followed by at least one more NAME header: when the header
loops of `cmd_get`, `check_put` and `cmd_setpath` end, the session's name is
`v`; and the `get` and `setpath` fulfillers, when the command reaches them,
are called with that name. -/
theorem first_name_header_wins (env : Env) (st : State) (pre post : List obex_header)
    (h : obex_header) (v : List Nat)
    (hcur : st.obj.cursor = 0)
    (hhdrs : st.obj.headers = pre ++ h :: post)
    (hpre : ∀ x ∈ pre, x.hi ≠ OBEX_HDR_NAME)
    (hhi : h.hi = OBEX_HDR_NAME) (hlen : h.hlen ≠ 0)
    (hv : env.g_convert (h.hd.bs.take h.hlen) = some v)
    (_hmore : ∃ x ∈ post, x.hi = OBEX_HDR_NAME) :
    (cmd_get_scan env st).os.name = some v ∧
    (check_put_scan env st).os.name = some v ∧
    (cmd_setpath_scan env st).os.name = some v ∧
    (∀ g, env.cmds.get = some g → (chk_cid st st.os.cid).2 = true →
      ∃ os1, os1.name = some v ∧
        (cmd_get env st).log = st.log ++ [action.fulfil slot.get os1]) ∧
    (∀ g, env.cmds.setpath = some g → (chk_cid st st.os.cid).2 = true →
      ∃ os1, os1.name = some v ∧
        (cmd_setpath env st).log = st.log ++ [action.fulfil slot.setpath os1]) := by
  have hp : pending st.obj = pre ++ h :: post := by
    rw [pending_of_cursor_zero _ hcur, hhdrs]
  have hget : (cmd_get_scan env st).os.name = some v := by
    simp only [cmd_get_scan, hp]
    exact get_headers_first_name env _ pre post h v rfl hpre hhi hlen hv
  have hput : (check_put_scan env st).os.name = some v := by
    simp only [check_put_scan, hp]
    exact put_headers_first_name env _ pre post h v rfl hpre hhi hlen hv
  have hset : (cmd_setpath_scan env st).os.name = some v := by
    simp only [cmd_setpath_scan, hp]
    exact (setpath_headers_first_name env _ pre post h v rfl hpre hhi hlen hv).1
  refine ⟨hget, hput, hset, ?_, ?_⟩
  · intro g hg hok
    refine ⟨(cmd_get_scan env st).os, hget, ?_⟩
    have hst := chk_cid_pass st st.os.cid hcur hok
    simp [cmd_get, hg, hok, hst, invoke, emit, cmd_get_scan]
  · intro g hg hok
    refine ⟨(cmd_setpath_scan env st).os, hset, ?_⟩
    have hst := chk_cid_pass st st.os.cid hcur hok
    simp [cmd_setpath, hg, hok, hst, invoke, emit, cmd_setpath_scan]

/-- C9 at a request whose NAME headers carry "a" and then "b". -/
theorem first_name_header_wins_witness :
    (cmd_get_scan (sample_ftp_env 0) (sample_state (sample_ftp_session 7)
        (sample_request [] [connection_header 7, name_header [0, 97], name_header [0, 98]])
        7)).os.name = some [97] ∧
    (check_put_scan (sample_ftp_env 0) (sample_state (sample_ftp_session 7)
        (sample_request [] [connection_header 7, name_header [0, 97], name_header [0, 98]])
        7)).os.name = some [97] ∧
    (cmd_setpath_scan (sample_ftp_env 0) (sample_state (sample_ftp_session 7)
        (sample_request [] [connection_header 7, name_header [0, 97], name_header [0, 98]])
        7)).os.name = some [97] :=
  have h := first_name_header_wins (sample_ftp_env 0) (sample_state (sample_ftp_session 7)
      (sample_request [] [connection_header 7, name_header [0, 97], name_header [0, 98]]) 7)
    [connection_header 7] [name_header [0, 98]] (name_header [0, 97]) [97]
    rfl rfl (by decide) rfl (by decide) (by decide) (by decide)
  ⟨h.1, h.2.1, h.2.2.1⟩

/-! ### Admission control -/

theorem put_header_checked (env : Env) (os : obex_session) (h : obex_header) :
    (put_header env os h).checked = os.checked := by
  unfold put_header
  split_ifs
  · exact name_case_checked env os h
  · exact type_case_checked env os h
  all_goals rfl

theorem put_headers_checked (env : Env) (hs : List obex_header) (os : obex_session) :
    (put_headers env os hs).checked = os.checked := by
  induction hs generalizing os with
  | nil => rfl
  | cons h rest ih =>
    have h1 := ih (put_header env os h)
    rw [put_header_checked] at h1
    simpa [put_headers] using h1

theorem put_header_name_empty (env : Env) (os : obex_session) (h : obex_header)
    (hn : os.name = none) (hh : h.hi = OBEX_HDR_NAME → h.hlen = 0) :
    (put_header env os h).name = none := by
  by_cases hhi : h.hi = OBEX_HDR_NAME
  · simp [put_header, hhi, name_case, hn, hh hhi]
  · rw [put_header_name_other env os h hhi]; exact hn

/-- The loop of `check_put` started without a name ends without one when
every NAME header is empty. -/
theorem put_headers_name_empty (env : Env) (hs : List obex_header) (os : obex_session)
    (hn : os.name = none) (hh : ∀ h ∈ hs, h.hi = OBEX_HDR_NAME → h.hlen = 0) :
    (put_headers env os hs).name = none := by
  induction hs generalizing os with
  | nil => exact hn
  | cons h rest ih =>
    exact ih (put_header env os h)
      (put_header_name_empty env os h hn (hh h (List.mem_cons_self _ _)))
      (fun x hx => hh x (List.mem_cons_of_mem _ hx))

/-- What `check_put` does when the header loop leaves no name. -/
theorem check_put_no_name (env : Env) (st : State)
    (hno : ∀ h ∈ st.obj.headers, h.hi = OBEX_HDR_NAME → h.hlen = 0) :
    (check_put env st).2 = false ∧
    (check_put env st).1.obj.rsp = (OBEX_RSP_BAD_REQUEST, OBEX_RSP_BAD_REQUEST) ∧
    (check_put env st).1.log = st.log ∧
    (check_put env st).1.os.name = none ∧
    (check_put env st).1.os.type = none ∧
    (check_put env st).1.os.checked = st.os.checked := by
  have hname : (check_put_scan env st).os.name = none := by
    simp only [check_put_scan]
    exact put_headers_name_empty env _ _ rfl (fun h hm => hno h (mem_pending _ _ hm))
  have hchk : (check_put_scan env st).os.checked = st.os.checked := by
    simp only [check_put_scan]
    exact put_headers_checked env _ _
  have hlog : (check_put_scan env st).log = st.log := rfl
  simp [check_put, hname, hchk, hlog, set_rsp, OBEX_ObjectSetRsp]

/-- The outside calls of `check_put` are the `chkput` slot and `fstatvfs`,
never the `put` fulfiller; and a TRUE result comes with `checked` set. -/
theorem check_put_spec (env : Env) (st : State) :
    (∃ new, (check_put env st).1.log = st.log ++ new ∧
      ∀ os, action.fulfil slot.put os ∉ new) ∧
    ((check_put env st).2 = true → (check_put env st).1.os.checked = true) := by
  have hlog : (check_put_scan env st).log = st.log := rfl
  unfold check_put
  simp only []
  split_ifs with h1
  · exact ⟨⟨[], by simp [set_rsp, hlog], by simp⟩, by simp⟩
  · cases hc : env.cmds.chkput with
    | none => exact ⟨⟨[], by simp [hlog], by simp⟩, by simp⟩
    | some c =>
      simp only []
      split_ifs with h2
      · exact ⟨⟨[action.fulfil slot.chkput (check_put_scan env st).os],
          by simp [set_rsp, emit, hlog], by simp⟩, by simp⟩
      · split
        · exact ⟨⟨[action.fulfil slot.chkput (check_put_scan env st).os,
              action.fstatvfs _], by simp [set_rsp, emit, hlog]; rfl, by simp⟩, by simp⟩
        · split_ifs with h3
          · exact ⟨⟨[action.fulfil slot.chkput (check_put_scan env st).os,
              action.fstatvfs _], by simp [set_rsp, emit, hlog]; rfl, by simp⟩, by simp⟩
          · exact ⟨⟨[action.fulfil slot.chkput (check_put_scan env st).os,
              action.fstatvfs _], by simp [emit, hlog]; rfl, by simp⟩, by simp⟩

/-- The outside calls of `cmd_put`: whatever it adds to the record, a call of
the `put` fulfiller is on a session with `checked` set, and there is none
when `check_put` ran and failed. -/
theorem cmd_put_spec (env : Env) (st : State) :
    ∃ new, (cmd_put env st).log = st.log ++ new ∧
      (∀ os, action.fulfil slot.put os ∈ new → os.checked = true) ∧
      (st.os.checked = false → (check_put env (chk_cid st st.os.cid).1).2 = false →
        ∀ os, action.fulfil slot.put os ∉ new) := by
  obtain ⟨hos, hlog, -, -⟩ := chk_cid_frame st st.os.cid
  unfold cmd_put
  cases hp : env.cmds.put with
  | none => exact ⟨[], by simp [set_rsp], by simp, by simp⟩
  | some put =>
    simp only []
    by_cases hok : (chk_cid st st.os.cid).2 = false
    · rw [if_pos hok]
      exact ⟨[], by simp [hlog], by simp, by simp⟩
    · rw [if_neg hok]
      by_cases hchk : (chk_cid st st.os.cid).1.os.checked = false
      · rw [if_pos hchk]
        obtain ⟨⟨new, hnew, hnone⟩, htrue⟩ := check_put_spec env (chk_cid st st.os.cid).1
        by_cases hc : (check_put env (chk_cid st st.os.cid).1).2 = false
        · rw [if_pos hc]
          exact ⟨new, by rw [hnew, hlog], fun os hm => absurd hm (hnone os),
            fun _ _ => hnone⟩
        · rw [if_neg hc]
          have hct : (check_put env (chk_cid st st.os.cid).1).2 = true := by
            simpa using hc
          refine ⟨new ++ [action.fulfil slot.put (check_put env (chk_cid st st.os.cid).1).1.os],
            by simp [invoke, emit, hnew, hlog], ?_, ?_⟩
          · intro os hm
            rcases List.mem_append.1 hm with hm | hm
            · exact absurd hm (hnone os)
            · simp at hm
              rw [hm]
              exact htrue hct
          · intro _ hf
            exact absurd hf hc
      · rw [if_neg hchk]
        have hct : (chk_cid st st.os.cid).1.os.checked = true := by simpa using hchk
        refine ⟨[action.fulfil slot.put (chk_cid st st.os.cid).1.os],
          by simp [invoke, emit, hlog], ?_, ?_⟩
        · intro os hm
          simp at hm
          rw [hm]
          exact hct
        · intro hf
          rw [hos] at hct
          rw [hf] at hct
          exact absurd hct (by simp)

/-- C8. When the command table has no fulfiller for GET, PUT or SETPATH, the
Request event for that command only sets the response to not implemented: the
session, the header read position, the id counter and the record of outside
calls are as before. Without a `put` slot the Request-check event for PUT
changes nothing at all, so admission control does not run. -/
theorem request_without_fulfiller (env : Env) (inp : Input) (st : State) :
    (env.cmds.get = none →
      obex_event env OBEX_EV_REQ OBEX_CMD_GET inp st =
        some { st with obj := { st.obj with
          rsp := (OBEX_RSP_NOT_IMPLEMENTED, OBEX_RSP_NOT_IMPLEMENTED) } }) ∧
    (env.cmds.setpath = none →
      obex_event env OBEX_EV_REQ OBEX_CMD_SETPATH inp st =
        some { st with obj := { st.obj with
          rsp := (OBEX_RSP_NOT_IMPLEMENTED, OBEX_RSP_NOT_IMPLEMENTED) } }) ∧
    (env.cmds.put = none →
      obex_event env OBEX_EV_REQ OBEX_CMD_PUT inp st =
        some { st with obj := { st.obj with
          rsp := (OBEX_RSP_NOT_IMPLEMENTED, OBEX_RSP_NOT_IMPLEMENTED) } } ∧
      obex_event env OBEX_EV_REQCHECK OBEX_CMD_PUT inp st = some st) := by
  refine ⟨?_, ?_, ?_⟩
  · intro h
    simp [obex_event, ev_req, cmd_get, h, set_rsp, OBEX_ObjectSetRsp, OBEX_EV_REQ,
      OBEX_EV_PROGRESS, OBEX_EV_ABORT, OBEX_EV_REQDONE, OBEX_EV_REQHINT, OBEX_EV_REQCHECK,
      OBEX_CMD_GET, OBEX_CMD_DISCONNECT, OBEX_CMD_CONNECT, OBEX_CMD_SETPATH]
  · intro h
    simp [obex_event, ev_req, cmd_setpath, h, set_rsp, OBEX_ObjectSetRsp, OBEX_EV_REQ,
      OBEX_EV_PROGRESS, OBEX_EV_ABORT, OBEX_EV_REQDONE, OBEX_EV_REQHINT, OBEX_EV_REQCHECK,
      OBEX_CMD_DISCONNECT, OBEX_CMD_CONNECT, OBEX_CMD_SETPATH]
  · intro h
    constructor
    · simp [obex_event, ev_req, cmd_put, h, set_rsp, OBEX_ObjectSetRsp, OBEX_EV_REQ,
        OBEX_EV_PROGRESS, OBEX_EV_ABORT, OBEX_EV_REQDONE, OBEX_EV_REQHINT, OBEX_EV_REQCHECK,
        OBEX_CMD_GET, OBEX_CMD_PUT, OBEX_CMD_DISCONNECT, OBEX_CMD_CONNECT, OBEX_CMD_SETPATH]
    · simp [obex_event, ev_reqcheck, h, OBEX_EV_REQ,
        OBEX_EV_PROGRESS, OBEX_EV_ABORT, OBEX_EV_REQDONE, OBEX_EV_REQHINT, OBEX_EV_REQCHECK]

/-- C6. A PUT whose headers yield no name (no NAME header, or only empty
ones): `check_put` returns FALSE with the response bad request, makes no
outside call (neither `chkput` nor `fstatvfs`), leaves name and type absent
and `checked` as it was; and `cmd_put`, entered with `checked` false, makes no
outside call either (the `put` fulfiller is not called) and leaves `checked`
false. -/
theorem put_without_name (env : Env) (st : State)
    (hno : ∀ h ∈ st.obj.headers, h.hi = OBEX_HDR_NAME → h.hlen = 0) :
    (check_put env st).2 = false ∧
    (check_put env st).1.obj.rsp = (OBEX_RSP_BAD_REQUEST, OBEX_RSP_BAD_REQUEST) ∧
    (check_put env st).1.log = st.log ∧
    (check_put env st).1.os.name = none ∧
    (check_put env st).1.os.type = none ∧
    (check_put env st).1.os.checked = st.os.checked ∧
    (st.os.checked = false →
      (cmd_put env st).log = st.log ∧ (cmd_put env st).os.checked = false) := by
  obtain ⟨h1, h2, h3, h4, h5, h6⟩ := check_put_no_name env st hno
  refine ⟨h1, h2, h3, h4, h5, h6, ?_⟩
  intro hchk
  obtain ⟨hos, hlog, -, hhdrs⟩ := chk_cid_frame st st.os.cid
  have hno1 : ∀ h ∈ (chk_cid st st.os.cid).1.obj.headers,
      h.hi = OBEX_HDR_NAME → h.hlen = 0 := by rw [hhdrs]; exact hno
  obtain ⟨c1, -, c3, -, -, c6⟩ := check_put_no_name env (chk_cid st st.os.cid).1 hno1
  unfold cmd_put
  cases hp : env.cmds.put with
  | none => simp [set_rsp, hchk]
  | some put =>
    simp only []
    by_cases hok : (chk_cid st st.os.cid).2 = false
    · rw [if_pos hok]
      exact ⟨hlog, by rw [hos]; exact hchk⟩
    · rw [if_neg hok, hos, if_pos hchk, if_pos c1]
      exact ⟨by rw [c3, hlog], by rw [c6, hos]; exact hchk⟩

/-- C6 at a PUT on an ObjectPush session whose only NAME header is empty. -/
theorem put_without_name_witness :
    (check_put (sample_opp_env 100) (sample_state sample_opp_session
        (sample_request [] [name_header [], length_header 10]) 0)).2 = false ∧
    (check_put (sample_opp_env 100) (sample_state sample_opp_session
        (sample_request [] [name_header [], length_header 10]) 0)).1.obj.rsp
      = (OBEX_RSP_BAD_REQUEST, OBEX_RSP_BAD_REQUEST) ∧
    (cmd_put (sample_opp_env 100) (sample_state sample_opp_session
        (sample_request [] [name_header [], length_header 10]) 0)).log = [] :=
  have h := put_without_name (sample_opp_env 100) (sample_state sample_opp_session
    (sample_request [] [name_header [], length_header 10]) 0) (by decide)
  ⟨h.1, h.2.1, (h.2.2.2.2.2.2 rfl).1⟩

/-- C7. For every state and every PUT Request event: each call of the `put`
fulfiller that the event makes is on a session whose `checked` flag is true
at that moment; and when the event starts with `checked` false and
`check_put` fails, the event makes no such call. -/
theorem put_fulfiller_needs_checked (env : Env) (inp : Input) (st : State) :
    ∃ st1 new, obex_event env OBEX_EV_REQ OBEX_CMD_PUT inp st = some st1 ∧
      st1.log = st.log ++ new ∧
      (∀ os, action.fulfil slot.put os ∈ new → os.checked = true) ∧
      (st.os.checked = false → (check_put env (chk_cid st st.os.cid).1).2 = false →
        ∀ os, action.fulfil slot.put os ∉ new) := by
  obtain ⟨new, h1, h2, h3⟩ := cmd_put_spec env st
  refine ⟨cmd_put env st, new, ?_, h1, h2, h3⟩
  simp [obex_event, ev_req, OBEX_EV_REQ,
    OBEX_EV_PROGRESS, OBEX_EV_ABORT, OBEX_EV_REQDONE, OBEX_EV_REQHINT, OBEX_EV_REQCHECK,
    OBEX_CMD_GET, OBEX_CMD_PUT, OBEX_CMD_DISCONNECT, OBEX_CMD_CONNECT, OBEX_CMD_SETPATH]

theorem put_header_size_other (env : Env) (os : obex_session) (h : obex_header)
    (hh : h.hi ≠ OBEX_HDR_LENGTH ∧ h.hi ≠ OBEX_HDR_BODY) :
    (put_header env os h).size = os.size := by
  unfold put_header
  split_ifs with h1 h2 h3 h4 h5
  · exact name_case_size env os h
  · exact type_case_size env os h
  · exact absurd h3 hh.2
  · exact absurd h4 hh.1
  · rfl
  · rfl

theorem put_headers_size_other (env : Env) (hs : List obex_header) (os : obex_session)
    (hh : ∀ x ∈ hs, x.hi ≠ OBEX_HDR_LENGTH ∧ x.hi ≠ OBEX_HDR_BODY) :
    (put_headers env os hs).size = os.size := by
  induction hs generalizing os with
  | nil => rfl
  | cons h rest ih =>
    have h1 := ih (put_header env os h) (fun x hx => hh x (List.mem_cons_of_mem _ hx))
    rw [put_header_size_other env os h (hh h (List.mem_cons_self _ _))] at h1
    simpa [put_headers] using h1

theorem put_header_length (env : Env) (os : obex_session) (h : obex_header)
    (hh : h.hi = OBEX_HDR_LENGTH) :
    (put_header env os h).size = ((h.hd.bq4 % 2 ^ 32 : Nat) : Int) := by
  simp [put_header, hh, OBEX_HDR_LENGTH, OBEX_HDR_NAME, OBEX_HDR_TYPE, OBEX_HDR_BODY]

/-- The size the loop of `check_put` leaves: the value of the last LENGTH
header when no BODY header follows it. -/
theorem put_headers_declared_size (env : Env) (os : obex_session)
    (pre post : List obex_header) (lh : obex_header)
    (hlh : lh.hi = OBEX_HDR_LENGTH)
    (hpost : ∀ x ∈ post, x.hi ≠ OBEX_HDR_LENGTH ∧ x.hi ≠ OBEX_HDR_BODY) :
    (put_headers env os (pre ++ lh :: post)).size = ((lh.hd.bq4 % 2 ^ 32 : Nat) : Int) := by
  have h1 := put_headers_size_other env post (put_header env (put_headers env os pre) lh) hpost
  rw [put_header_length env _ lh hlh] at h1
  simpa [put_headers, List.foldl_append] using h1

/-- The loop of `check_put` ends with a name when some NAME header is not
empty and converts. -/
theorem put_headers_name_isSome (env : Env) (hs : List obex_header) (os : obex_session)
    (hex : ∃ h ∈ hs, h.hi = OBEX_HDR_NAME ∧ h.hlen ≠ 0 ∧
      (env.g_convert (h.hd.bs.take h.hlen)).isSome = true) :
    ((put_headers env os hs).name).isSome = true := by
  induction hs generalizing os with
  | nil => simp at hex
  | cons x rest ih =>
    cases hn : os.name with
    | some v =>
      rw [put_headers_name_of_some env (x :: rest) os v hn]; rfl
    | none =>
      obtain ⟨h, hm, hhi, hlen, hv⟩ := hex
      rcases List.mem_cons.1 hm with he | hr
      · subst he
        obtain ⟨v, hv1⟩ := Option.isSome_iff_exists.1 hv
        have h2 : (put_header env os h).name = some v := by
          rw [put_header_first_name env os h hn hhi hlen]; exact hv1
        have h3 := put_headers_name_of_some env rest _ v h2
        have h4 : (put_headers env os (h :: rest)).name = some v := by
          simpa [put_headers] using h3
        rw [h4]; rfl
      · have h3 := ih (put_header env os x) ⟨h, hr, hhi, hlen, hv⟩
        simpa [put_headers] using h3

theorem size_exceeds_of_lt (n b a : Nat) (h : b * a < n % 2 ^ 32) :
    size_exceeds ((n % 2 ^ 32 : Nat) : Int) (free_bytes b a) = true := by
  have h1 : free_bytes b a ≤ b * a := Nat.mod_le _ _
  have h2 : n % 2 ^ 32 < 2 ^ 32 := Nat.mod_lt _ (by decide)
  have h3 : (((n % 2 ^ 32 : Nat) : Int) % 2 ^ 64).toNat = n % 2 ^ 32 := by
    have : (((n % 2 ^ 32 : Nat) : Int) % 2 ^ 64) = ((n % 2 ^ 32 : Nat) : Int) := by
      apply Int.emod_eq_of_lt
      · exact Int.ofNat_nonneg _
      · have : (2 : Int) ^ 64 = ((2 ^ 64 : Nat) : Int) := by norm_num
        rw [this]
        exact Int.ofNat_lt.2 (lt_trans h2 (by decide))
    rw [this]
    exact Int.toNat_ofNat _
  unfold size_exceeds
  rw [h3]
  simp only [decide_eq_true_eq]
  omega

/-- What `check_put` does, with a `chkput` slot that leaves `size` and
`checked` alone, when the declared size exceeds the free bytes. -/
theorem check_put_no_space (env : Env) (st : State) (chkput : checker)
    (pre post : List obex_header) (lh : obex_header)
    (hchk : env.cmds.chkput = some chkput)
    (hframe : ∀ os obj, (chkput os obj).1.1.size = os.size ∧
      (chkput os obj).1.1.checked = os.checked)
    (hp : pending st.obj = pre ++ lh :: post)
    (hname : ∃ h ∈ pending st.obj, h.hi = OBEX_HDR_NAME ∧ h.hlen ≠ 0 ∧
      (env.g_convert (h.hd.bs.take h.hlen)).isSome = true)
    (hlh : lh.hi = OBEX_HDR_LENGTH)
    (hpost : ∀ x ∈ post, x.hi ≠ OBEX_HDR_LENGTH ∧ x.hi ≠ OBEX_HDR_BODY)
    (hfree : ∀ fd b a, env.fstatvfs fd = some (b, a) → b * a < lh.hd.bq4 % 2 ^ 32) :
    (check_put env st).2 = false ∧
    (check_put env st).1.obj.rsp = (OBEX_RSP_FORBIDDEN, OBEX_RSP_FORBIDDEN) ∧
    (check_put env st).1.os.checked = st.os.checked := by
  have hnm : ((check_put_scan env st).os.name).isSome = true := by
    simp only [check_put_scan]
    exact put_headers_name_isSome env _ _ hname
  have hnn : ((check_put_scan env st).os.name).isNone = false := by
    cases hx : (check_put_scan env st).os.name with
    | none => rw [hx] at hnm; simp at hnm
    | some v => rfl
  have hsz : (check_put_scan env st).os.size = ((lh.hd.bq4 % 2 ^ 32 : Nat) : Int) := by
    simp only [check_put_scan, hp]
    exact put_headers_declared_size env _ pre post lh hlh hpost
  have hck : (check_put_scan env st).os.checked = st.os.checked := by
    simp only [check_put_scan]
    exact put_headers_checked env _ _
  obtain ⟨fsz, fck⟩ := hframe (check_put_scan env st).os
    (OBEX_ObjectReParseHeaders (check_put_scan env st).obj)
  unfold check_put
  simp only [hnn, hchk, Bool.false_eq_true, if_false, emit]
  split_ifs with h2
  · simp [set_rsp, OBEX_ObjectSetRsp, fck, hck]
  · split
    · simp [set_rsp, OBEX_ObjectSetRsp, fck, hck]
    · rename_i b a hfs
      have hlt := hfree _ b a hfs
      have hex := size_exceeds_of_lt lh.hd.bq4 b a hlt
      simp only [fsz, hsz, hex, if_true]
      simp [set_rsp, OBEX_ObjectSetRsp, fck, hck]

/-- C5, as stated, fails for a profile without a `chkput` slot: on the table
`ftp`, a PUT with a NAME header and a LENGTH header declaring 1000 bytes,
with 10 bytes free, passes `check_put` (TRUE, `checked` set, response
untouched) and `cmd_put` calls the `put` fulfiller. -/
theorem put_over_free_space_admitted :
    (sample_ftp_env 10).cmds.put.isSome = true ∧
    (sample_ftp_env 10).cmds.chkput.isNone = true ∧
    (sample_ftp_env 10).fstatvfs (-1) = some (1, 10) ∧
    (check_put (sample_ftp_env 10) (sample_state (sample_ftp_session 7)
        (sample_request [] [connection_header 7, name_header [0, 97], length_header 1000])
        7)).2 = true ∧
    (check_put (sample_ftp_env 10) (sample_state (sample_ftp_session 7)
        (sample_request [] [connection_header 7, name_header [0, 97], length_header 1000])
        7)).1.os.checked = true ∧
    (check_put (sample_ftp_env 10) (sample_state (sample_ftp_session 7)
        (sample_request [] [connection_header 7, name_header [0, 97], length_header 1000])
        7)).1.obj.rsp = (0, 0) ∧
    (cmd_put (sample_ftp_env 10) (sample_state (sample_ftp_session 7)
        (sample_request [] [connection_header 7, name_header [0, 97], length_header 1000])
        7)).log =
      [action.fulfil slot.put { sample_ftp_session 7 with
        name := some [97], size := 1000, checked := true }] := by
  refine ⟨rfl, rfl, rfl, ?_, ?_, ?_, ?_⟩ <;> decide

/-- With a `chkput` slot that leaves the session's size and `checked` alone,
a PUT whose headers yield a name and declare, in the last LENGTH header with
no BODY header after it, a size greater than block size times available
blocks: `check_put` returns FALSE with the response forbidden and `checked`
as it was, and `cmd_put`, entered with `checked` false, does not call the
`put` fulfiller. -/
theorem put_rejected_with_chkput (env : Env) (st : State) (chkput : checker)
    (pre post : List obex_header) (lh : obex_header)
    (hchk : env.cmds.chkput = some chkput)
    (hframe : ∀ os obj, (chkput os obj).1.1.size = os.size ∧
      (chkput os obj).1.1.checked = os.checked)
    (hcur : st.obj.cursor = 0)
    (hhdrs : st.obj.headers = pre ++ lh :: post)
    (hname : ∃ h ∈ st.obj.headers, h.hi = OBEX_HDR_NAME ∧ h.hlen ≠ 0 ∧
      (env.g_convert (h.hd.bs.take h.hlen)).isSome = true)
    (hlh : lh.hi = OBEX_HDR_LENGTH)
    (hpost : ∀ x ∈ post, x.hi ≠ OBEX_HDR_LENGTH ∧ x.hi ≠ OBEX_HDR_BODY)
    (hfree : ∀ fd b a, env.fstatvfs fd = some (b, a) → b * a < lh.hd.bq4 % 2 ^ 32) :
    (check_put env st).2 = false ∧
    (check_put env st).1.obj.rsp = (OBEX_RSP_FORBIDDEN, OBEX_RSP_FORBIDDEN) ∧
    (check_put env st).1.os.checked = st.os.checked ∧
    (st.os.checked = false →
      ∃ new, (cmd_put env st).log = st.log ++ new ∧
        ∀ os, action.fulfil slot.put os ∉ new) := by
  have hpe : pending st.obj = st.obj.headers := pending_of_cursor_zero _ hcur
  have hp : pending st.obj = pre ++ lh :: post := by rw [hpe, hhdrs]
  have hname1 : ∃ h ∈ pending st.obj, h.hi = OBEX_HDR_NAME ∧ h.hlen ≠ 0 ∧
      (env.g_convert (h.hd.bs.take h.hlen)).isSome = true := by rw [hpe]; exact hname
  obtain ⟨h1, h2, h3⟩ :=
    check_put_no_space env st chkput pre post lh hchk hframe hp hname1 hlh hpost hfree
  refine ⟨h1, h2, h3, ?_⟩
  intro hfalse
  obtain ⟨new, hlog, -, hnone⟩ := cmd_put_spec env st
  refine ⟨new, hlog, ?_⟩
  by_cases hok : (chk_cid st st.os.cid).2 = true
  · have hst := chk_cid_pass st st.os.cid hcur hok
    exact hnone hfalse (by rw [hst]; exact h1)
  · -- chk_cid failed: cmd_put returned before anything else
    have hf : (chk_cid st st.os.cid).2 = false := by simpa using hok
    have hl : (cmd_put env st).log = st.log := by
      unfold cmd_put
      cases hp : env.cmds.put with
      | none => simp [set_rsp]
      | some put =>
        simp only [hf, if_true]
        exact (chk_cid_frame st st.os.cid).2.1
    have hnil : new = [] := by
      have := hlog.symm.trans hl
      simpa using this
    rw [hnil]
    simp

/-- What `check_put` does without a `chkput` slot when the header loop leaves
a name: it goes to `done`, so neither `chkput` nor `fstatvfs` is called, the
response is not touched, `checked` is set and TRUE is returned, whatever size
the headers declare. -/
theorem check_put_without_chkput (env : Env) (st : State)
    (hchk : env.cmds.chkput = none)
    (hname : ∃ h ∈ pending st.obj, h.hi = OBEX_HDR_NAME ∧ h.hlen ≠ 0 ∧
      (env.g_convert (h.hd.bs.take h.hlen)).isSome = true) :
    check_put env st =
      ({ st with
          os := { (check_put_scan env st).os with checked := true }
          obj := { st.obj with cursor := 0 } }, true) := by
  have hnm : ((check_put_scan env st).os.name).isSome = true := by
    simp only [check_put_scan]
    exact put_headers_name_isSome env _ _ hname
  have hnn : ((check_put_scan env st).os.name).isNone = false := by
    cases hx : (check_put_scan env st).os.name with
    | none => rw [hx] at hnm; simp at hnm
    | some v => rfl
  unfold check_put
  simp only [hnn, hchk, Bool.false_eq_true, if_false]
  simp [check_put_scan, OBEX_ObjectReParseHeaders, exhaust]

/-- C5, amended. For a PUT whose headers yield a name. With a `chkput` slot
(one that leaves the session's size and `checked` alone) and a size declared,
in the last LENGTH header with no BODY header after it, above block size times
available blocks: `check_put` returns FALSE with the response forbidden and
`checked` as it was, and `cmd_put`, entered with `checked` false, does not
call the `put` fulfiller. Without a `chkput` slot, whatever size is declared:
`check_put` makes no outside call (no free-space query), leaves the response
alone, keeps the size the headers declare, sets `checked` and returns TRUE,
and `cmd_put`, entered with `checked` false and a `put` slot once the
connection id is accepted, calls the `put` fulfiller. -/
theorem put_free_space_gate (env : Env) (st : State)
    (hcur : st.obj.cursor = 0)
    (hname : ∃ h ∈ st.obj.headers, h.hi = OBEX_HDR_NAME ∧ h.hlen ≠ 0 ∧
      (env.g_convert (h.hd.bs.take h.hlen)).isSome = true) :
    (∀ (chkput : checker) (pre post : List obex_header) (lh : obex_header),
      env.cmds.chkput = some chkput →
      (∀ os obj, (chkput os obj).1.1.size = os.size ∧
        (chkput os obj).1.1.checked = os.checked) →
      st.obj.headers = pre ++ lh :: post →
      lh.hi = OBEX_HDR_LENGTH →
      (∀ x ∈ post, x.hi ≠ OBEX_HDR_LENGTH ∧ x.hi ≠ OBEX_HDR_BODY) →
      (∀ fd b a, env.fstatvfs fd = some (b, a) → b * a < lh.hd.bq4 % 2 ^ 32) →
      (check_put env st).2 = false ∧
      (check_put env st).1.obj.rsp = (OBEX_RSP_FORBIDDEN, OBEX_RSP_FORBIDDEN) ∧
      (check_put env st).1.os.checked = st.os.checked ∧
      (st.os.checked = false →
        ∃ new, (cmd_put env st).log = st.log ++ new ∧
          ∀ os, action.fulfil slot.put os ∉ new)) ∧
    (env.cmds.chkput = none →
      (check_put env st).2 = true ∧
      (check_put env st).1.os.checked = true ∧
      (check_put env st).1.log = st.log ∧
      (check_put env st).1.obj.rsp = st.obj.rsp ∧
      (check_put env st).1.os.size = (check_put_scan env st).os.size ∧
      (∀ put, env.cmds.put = some put → (chk_cid st st.os.cid).2 = true →
        st.os.checked = false →
        (cmd_put env st).log =
          st.log ++ [action.fulfil slot.put (check_put env st).1.os])) := by
  have hpe : pending st.obj = st.obj.headers := pending_of_cursor_zero _ hcur
  constructor
  · intro chkput pre post lh hchk hframe hhdrs hlh hpost hfree
    exact put_rejected_with_chkput env st chkput pre post lh hchk hframe hcur hhdrs hname
      hlh hpost hfree
  · intro hchk
    have hname1 : ∃ h ∈ pending st.obj, h.hi = OBEX_HDR_NAME ∧ h.hlen ≠ 0 ∧
        (env.g_convert (h.hd.bs.take h.hlen)).isSome = true := by rw [hpe]; exact hname
    have heq := check_put_without_chkput env st hchk hname1
    refine ⟨by rw [heq], by rw [heq], by rw [heq], by rw [heq], by rw [heq], ?_⟩
    intro put hput hok hfalse
    have hst := chk_cid_pass st st.os.cid hcur hok
    have h2 : (check_put env st).2 = true := by rw [heq]
    have hl : (check_put env st).1.log = st.log := by rw [heq]
    simp only [cmd_put, hput, hok, hst, hfalse, h2, invoke, emit, hl]
    simp

/-- C5, amended, at a PUT declaring 1000 bytes with 10 bytes free: refused
on an ObjectPush session (table `opp`, with `chkput`), admitted on a
FileTransfer session (table `ftp`, without). -/
theorem put_free_space_gate_witness :
    ((check_put (sample_opp_env 10) (sample_state sample_opp_session
        (sample_request [] [name_header [0, 97], length_header 1000]) 0)).2 = false ∧
     (check_put (sample_opp_env 10) (sample_state sample_opp_session
        (sample_request [] [name_header [0, 97], length_header 1000]) 0)).1.obj.rsp
      = (OBEX_RSP_FORBIDDEN, OBEX_RSP_FORBIDDEN) ∧
     (check_put (sample_opp_env 10) (sample_state sample_opp_session
        (sample_request [] [name_header [0, 97], length_header 1000]) 0)).1.os.checked
      = false) ∧
    ((check_put (sample_ftp_env 10) (sample_state (sample_ftp_session 7)
        (sample_request [] [connection_header 7, name_header [0, 97], length_header 1000])
        7)).2 = true ∧
     (check_put (sample_ftp_env 10) (sample_state (sample_ftp_session 7)
        (sample_request [] [connection_header 7, name_header [0, 97], length_header 1000])
        7)).1.os.checked = true ∧
     (check_put (sample_ftp_env 10) (sample_state (sample_ftp_session 7)
        (sample_request [] [connection_header 7, name_header [0, 97], length_header 1000])
        7)).1.log = []) :=
  have h1 := (put_free_space_gate (sample_opp_env 10) (sample_state sample_opp_session
      (sample_request [] [name_header [0, 97], length_header 1000]) 0) rfl (by decide)).1
    idle_checker [name_header [0, 97]] [] (length_header 1000) rfl
    (fun _ _ => ⟨rfl, rfl⟩) rfl rfl (by simp)
    (by
      intro fd b a hfs
      simp [sample_opp_env, sample_ftp_env] at hfs
      obtain ⟨hb, ha⟩ := hfs
      subst hb; subst ha
      decide)
  have h2 := (put_free_space_gate (sample_ftp_env 10) (sample_state (sample_ftp_session 7)
      (sample_request [] [connection_header 7, name_header [0, 97], length_header 1000])
      7) rfl (by decide)).2 rfl
  ⟨⟨h1.1, h1.2.1, h1.2.2.1⟩, ⟨h2.1, h2.2.1, h2.2.2.1⟩⟩

/-! ### Outbound streaming -/

theorem to_gint32_of_small (n : Nat) (h : n < 2 ^ 31) : to_gint32 (n : Int) = (n : Int) := by
  unfold to_gint32
  have h31 : (2 : Int) ^ 31 = 2147483648 := by norm_num
  have h32 : (2 : Int) ^ 32 = 4294967296 := by norm_num
  have hn : n < 2147483648 := by simpa using h
  rw [h31, h32]
  omega

theorem toNat_mod_of_small (n : Nat) (h : n < 2 ^ 31) :
    (((n : Int)) % 2 ^ 32).toNat = n := by
  have h32 : (2 : Int) ^ 32 = 4294967296 := by norm_num
  have hn : n < 2147483648 := by simpa using h
  rw [h32]
  omega

/-- One Stream-empty step on an open descriptor when `read` delivers a
non-empty chunk into the live buffer. -/
theorem obex_write_chunk (st : State) (c b : List Nat)
    (hfd : 0 ≤ st.os.fd) (hbuf : st.os.buf = bufptr.live b)
    (h1 : 1 ≤ c.length) (h2 : c.length < 2 ^ 31) :
    obex_write st (sys_read.data c) =
      ({ st with
          os := { st.os with
            buf := bufptr.live (c ++ b.drop c.length)
            offset := st.os.offset + c.length }
          obj := { st.obj with
            txhdrs := st.obj.txhdrs ++
              [{ hi := OBEX_HDR_BODY, hd := ⟨0, c ++ b.drop c.length⟩, hlen := c.length,
                 flags := OBEX_FL_STREAM_DATA }] } }, (c.length : Int)) := by
  have hnot : ¬ st.os.fd < 0 := not_lt.2 hfd
  have hne : ¬ ((c.length : Int) = 0) := by omega
  simp only [obex_write, hnot, if_false, obex_write_add_header, to_gint32_of_small _ h2, hne,
    hbuf, buf_store, buf_bytes, OBEX_ObjectAddHeader, toNat_mod_of_small _ h2]

/-- One Stream-empty step on an open descriptor when `read` returns 0. -/
theorem obex_write_eof (st : State) (hfd : 0 ≤ st.os.fd) :
    obex_write st (sys_read.data []) =
      ({ st with
          os := { st.os with buf := bufptr.null }
          obj := { st.obj with
            txhdrs := st.obj.txhdrs ++
              [{ hi := OBEX_HDR_BODY, hd := ⟨0, []⟩, hlen := 0,
                 flags := OBEX_FL_STREAM_DATAEND }] } }, 0) := by
  have hnot : ¬ st.os.fd < 0 := not_lt.2 hfd
  simp [obex_write, hnot, obex_write_add_header, to_gint32, OBEX_ObjectAddHeader]

theorem stream_out_cons_pos (rd : sys_read) (rest : List sys_read) (st : State)
    (h : ¬ (obex_write st rd).2 ≤ 0) :
    stream_out (rd :: rest) st =
      ((stream_out rest (obex_write st rd).1).1,
        (obex_write st rd).2 :: (stream_out rest (obex_write st rd).1).2) := by
  simp [stream_out, h]

/-- The Stream-empty step repeated over a file delivered in chunks of 1 to
`tx_mtu` bytes and then end of file, from any state with an open descriptor
and (when there is a chunk at all) a live buffer of `tx_mtu` bytes. -/
theorem stream_out_chunks (chunks : List (List Nat)) (st : State)
    (hfd : 0 ≤ st.os.fd) (hM : st.os.tx_mtu < 2 ^ 31)
    (hch : ∀ c ∈ chunks, 1 ≤ c.length ∧ c.length ≤ st.os.tx_mtu)
    (hbuf : chunks ≠ [] → ∃ b, st.os.buf = bufptr.live b ∧ b.length = st.os.tx_mtu) :
    ∃ new,
      (stream_out (chunks.map sys_read.data ++ [sys_read.data []]) st).1.obj.txhdrs
        = st.obj.txhdrs ++ new ∧
      new.map body_summary =
        chunks.map (fun c => (OBEX_HDR_BODY, OBEX_FL_STREAM_DATA, c.length, c))
          ++ [(OBEX_HDR_BODY, OBEX_FL_STREAM_DATAEND, 0, [])] ∧
      (stream_out (chunks.map sys_read.data ++ [sys_read.data []]) st).1.os.offset
        = st.os.offset + (chunks.flatten.length : Int) ∧
      (stream_out (chunks.map sys_read.data ++ [sys_read.data []]) st).1.os.buf
        = bufptr.null ∧
      (stream_out (chunks.map sys_read.data ++ [sys_read.data []]) st).2
        = chunks.map (fun c => (c.length : Int)) ++ [0] := by
  induction chunks generalizing st with
  | nil =>
    refine ⟨[{ hi := OBEX_HDR_BODY, hd := ⟨0, []⟩, hlen := 0,
               flags := OBEX_FL_STREAM_DATAEND }], ?_⟩
    simp [stream_out, obex_write_eof st hfd, body_summary]
  | cons c rest ih =>
    obtain ⟨b, hb, hlen⟩ := hbuf (by simp)
    obtain ⟨hc1, hc2⟩ := hch c (List.mem_cons_self _ _)
    have hc3 : c.length < 2 ^ 31 := lt_of_le_of_lt hc2 hM
    have hstep := obex_write_chunk st c b hfd hb hc1 hc3
    have hpos : ¬ ((c.length : Int) ≤ 0) := by omega
    obtain ⟨new, e1, e2, e3, e4, e5⟩ := ih (obex_write st (sys_read.data c)).1
      (by rw [hstep]; exact hfd) (by rw [hstep]; exact hM)
      (by rw [hstep]; exact fun x hx => hch x (List.mem_cons_of_mem _ hx))
      (by
        intro _
        rw [hstep]
        refine ⟨c ++ b.drop c.length, rfl, ?_⟩
        simp only [List.length_append, List.length_drop]
        show c.length + (b.length - c.length) = st.os.tx_mtu
        omega)
    have hpos1 : ¬ (obex_write st (sys_read.data c)).2 ≤ 0 := by rw [hstep]; exact hpos
    have hso := stream_out_cons_pos (sys_read.data c)
      (rest.map sys_read.data ++ [sys_read.data []]) st hpos1
    refine ⟨{ hi := OBEX_HDR_BODY, hd := ⟨0, c ++ b.drop c.length⟩, hlen := c.length,
              flags := OBEX_FL_STREAM_DATA } :: new, ?_, ?_, ?_, ?_, ?_⟩
    · rw [List.map_cons, List.cons_append, hso]
      simp only []
      rw [e1, hstep]
      simp
    · simp only [List.map_cons, List.cons_append, e2]
      simp [body_summary]
    · rw [List.map_cons, List.cons_append, hso]
      simp only []
      rw [e3, hstep]
      simp only [List.flatten_cons, List.length_append]
      push_cast
      ring
    · rw [List.map_cons, List.cons_append, hso]
      simp only []
      rw [e4]
    · rw [List.map_cons, List.cons_append, hso]
      simp only []
      rw [e5, hstep]
      simp

/-- C10. Outbound round trip. A resource `file` is opened by `os_prepare_get`
on a session with `tx_mtu = M` (a `gint32` count, M below 2^31), and `read`
delivers it in any sequence of chunks of 1 to M bytes followed by 0 at end of
file. Repeating `obex_write` until it returns 0 appends one BODY header
flagged more-data per chunk, carrying exactly that chunk, then one BODY header
of length 0 flagged end-of-stream; the lengths add up to the size of the
file, the offset ends at that size and the staging buffer is released. -/
theorem outbound_round_trip (st : State) (fd : Int) (file : List Nat)
    (chunks : List (List Nat))
    (hfd : 0 ≤ fd) (hM : st.os.tx_mtu < 2 ^ 31)
    (hfile : chunks.flatten = file)
    (hch : ∀ c ∈ chunks, 1 ≤ c.length ∧ c.length ≤ st.os.tx_mtu) :
    ∃ new,
      (stream_out (chunks.map sys_read.data ++ [sys_read.data []])
        (os_prepare_get st fd (some (file.length : Int))).1).1.obj.txhdrs
        = st.obj.txhdrs ++ new ∧
      new.map body_summary =
        chunks.map (fun c => (OBEX_HDR_BODY, OBEX_FL_STREAM_DATA, c.length, c))
          ++ [(OBEX_HDR_BODY, OBEX_FL_STREAM_DATAEND, 0, [])] ∧
      (new.map (fun t => t.hlen)).sum = file.length ∧
      (stream_out (chunks.map sys_read.data ++ [sys_read.data []])
        (os_prepare_get st fd (some (file.length : Int))).1).1.os.offset
        = (file.length : Int) ∧
      (stream_out (chunks.map sys_read.data ++ [sys_read.data []])
        (os_prepare_get st fd (some (file.length : Int))).1).1.os.buf = bufptr.null ∧
      (stream_out (chunks.map sys_read.data ++ [sys_read.data []])
        (os_prepare_get st fd (some (file.length : Int))).1).2
        = chunks.map (fun c => (c.length : Int)) ++ [0] := by
  have hnot : ¬ fd < 0 := not_lt.2 hfd
  have hprep : (os_prepare_get st fd (some (file.length : Int))).1 =
      { st with os :=
          if (file.length : Int) > 0 then
            { st.os with fd := fd, offset := 0, buf := g_new0 st.os.tx_mtu }
          else { st.os with fd := fd, offset := 0 } } := by
    simp only [os_prepare_get, hnot, if_false]
  have hmtu : (os_prepare_get st fd (some (file.length : Int))).1.os.tx_mtu = st.os.tx_mtu := by
    rw [hprep]; split_ifs <;> rfl
  have hfd1 : (os_prepare_get st fd (some (file.length : Int))).1.os.fd = fd := by
    rw [hprep]; split_ifs <;> rfl
  have hoff : (os_prepare_get st fd (some (file.length : Int))).1.os.offset = 0 := by
    rw [hprep]; split_ifs <;> rfl
  have htx : (os_prepare_get st fd (some (file.length : Int))).1.obj.txhdrs
      = st.obj.txhdrs := by rw [hprep]
  obtain ⟨new, e1, e2, e3, e4, e5⟩ := stream_out_chunks chunks
    (os_prepare_get st fd (some (file.length : Int))).1
    (by rw [hfd1]; exact hfd) (by rw [hmtu]; exact hM) (by rw [hmtu]; exact hch)
    (by
      intro hne
      have hpos : (file.length : Int) > 0 := by
        cases hcs : chunks with
        | nil => exact absurd hcs hne
        | cons c rest =>
          have h1 := (hch c (by rw [hcs]; exact List.mem_cons_self _ _)).1
          have h2 : c.length ≤ file.length := by
            rw [← hfile, hcs]; simp
          omega
      have hm : st.os.tx_mtu ≠ 0 := by
        cases hcs : chunks with
        | nil => exact absurd hcs hne
        | cons c rest =>
          have h1 := hch c (by rw [hcs]; exact List.mem_cons_self _ _)
          omega
      rw [hmtu, hprep, if_pos hpos]
      exact ⟨List.replicate st.os.tx_mtu 0, by simp [g_new0, hm], by simp⟩)
  refine ⟨new, by rw [e1, htx], e2, ?_, by rw [e3, hoff, hfile]; simp, e4, e5⟩
  have hl : new.map (fun t => t.hlen) = chunks.map List.length ++ [0] := by
    have := congrArg (List.map (fun q : Nat × Nat × Nat × List Nat => q.2.2.1)) e2
    simpa [body_summary, Function.comp] using this
  rw [hl, ← hfile, List.length_flatten]
  simp

/-- C10 at a five-byte file read as 2 + 2 + 1 bytes on a session whose
`tx_mtu` is 2. -/
theorem outbound_round_trip_witness :
    (stream_out ([[1, 2], [3, 4], [5]].map sys_read.data ++ [sys_read.data []])
        (os_prepare_get (sample_state { sample_opp_session with tx_mtu := 2 }
          (sample_request [] []) 0) 3 (some (([1, 2, 3, 4, 5] : List Nat).length : Int))).1
      ).1.os.offset = (([1, 2, 3, 4, 5] : List Nat).length : Int) ∧
    (stream_out ([[1, 2], [3, 4], [5]].map sys_read.data ++ [sys_read.data []])
        (os_prepare_get (sample_state { sample_opp_session with tx_mtu := 2 }
          (sample_request [] []) 0) 3 (some (([1, 2, 3, 4, 5] : List Nat).length : Int))).1
      ).1.os.buf = bufptr.null :=
  (outbound_round_trip (sample_state { sample_opp_session with tx_mtu := 2 }
      (sample_request [] []) 0) 3 [1, 2, 3, 4, 5] [[1, 2], [3, 4], [5]]
    (by decide) (by decide) (by decide) (by decide)).elim
    (fun _ h => ⟨h.2.2.2.1, h.2.2.2.2.1⟩)

/-! ### Inbound streaming: rejected and buffered chunks -/

/-- C11. A chunk larger than `rx_mtu`, or a non-empty chunk that arrives with
no descriptor open while a staging buffer is pending: `obex_read` returns the
negative value `-EIO` and leaves the whole state (session, buffer, offset) as
it was, and the Stream-available event then cancels the request and changes
nothing else. -/
theorem inbound_chunk_rejected (env : Env) (cmd : Nat) (inp : Input) (st : State)
    (hcase : inp.stream_size > st.os.rx_mtu ∨
      (st.os.fd < 0 ∧ inp.stream_size > 0 ∧ st.os.buf ≠ bufptr.null)) :
    obex_read st inp.stream_size inp.stream_buf inp.writes = some (st, -( EIO : Int)) ∧
    -( EIO : Int) < 0 ∧
    obex_event env OBEX_EV_STREAMAVAIL cmd inp st =
      some { st with log := st.log ++ [action.cancel_request] } := by
  have hread : obex_read st inp.stream_size inp.stream_buf inp.writes
      = some (st, -( EIO : Int)) := by
    unfold obex_read
    by_cases h0 : inp.stream_size < 0
    · rw [if_pos h0]
    · rw [if_neg h0]
      by_cases h1 : inp.stream_size > st.os.rx_mtu
      · rw [if_pos h1]
      · rw [if_neg h1]
        rcases hcase with h | ⟨hfd, hpos, hbuf⟩
        · exact absurd h h1
        · rw [if_pos ⟨hfd, hpos⟩, if_pos hbuf]
  have hneg : -( EIO : Int) < 0 := by decide
  refine ⟨hread, hneg, ?_⟩
  simp only [obex_event, hread, hneg, if_true, emit, OBEX_EV_STREAMAVAIL, OBEX_EV_PROGRESS,
    OBEX_EV_ABORT, OBEX_EV_REQDONE, OBEX_EV_REQHINT, OBEX_EV_REQCHECK, OBEX_EV_REQ]
  simp

/-- C11 at a second chunk of three bytes delivered while a buffer is pending. -/
theorem inbound_chunk_rejected_witness :
    obex_read (sample_state { sample_opp_session with buf := bufptr.live [9, 9] }
        (sample_request [] []) 0) 3 [1, 2, 3] [] =
      some (sample_state { sample_opp_session with buf := bufptr.live [9, 9] }
        (sample_request [] []) 0, -( EIO : Int)) ∧
    obex_event (sample_opp_env 0) OBEX_EV_STREAMAVAIL OBEX_CMD_PUT
        { sample_input with stream_size := 3, stream_buf := [1, 2, 3] }
        (sample_state { sample_opp_session with buf := bufptr.live [9, 9] }
          (sample_request [] []) 0) =
      some { sample_state { sample_opp_session with buf := bufptr.live [9, 9] }
          (sample_request [] []) 0 with log := [action.cancel_request] } :=
  have h := inbound_chunk_rejected (sample_opp_env 0) OBEX_CMD_PUT
    { sample_input with stream_size := 3, stream_buf := [1, 2, 3] }
    (sample_state { sample_opp_session with buf := bufptr.live [9, 9] }
      (sample_request [] []) 0)
    (Or.inr ⟨by decide, by decide, by decide⟩)
  ⟨h.1, h.2.2⟩

/-- C12, as stated, fails: the offset is assigned, not advanced. With no
descriptor, no pending buffer and the offset at 5, a chunk of three bytes is
buffered and the offset becomes 3, not 8. -/
theorem inbound_buffering_sets_offset :
    (sample_state { sample_opp_session with rx_mtu := 4, offset := 5 }
        (sample_request [] []) 0).os.fd < 0 ∧
    (sample_state { sample_opp_session with rx_mtu := 4, offset := 5 }
        (sample_request [] []) 0).os.buf = bufptr.null ∧
    obex_read (sample_state { sample_opp_session with rx_mtu := 4, offset := 5 }
        (sample_request [] []) 0) 3 [1, 2, 3] [] =
      some (sample_state { sample_opp_session with
          rx_mtu := 4, offset := 3, buf := bufptr.live [1, 2, 3, 0] }
        (sample_request [] []) 0, 0) ∧
    (3 : Int) ≠ 5 + 3 := by
  decide

/-- C12, amended. With no descriptor open and no staging buffer pending, a
non-empty chunk of n bytes, n at most `rx_mtu`: `obex_read` returns 0, the
session holds a fresh buffer of `rx_mtu` bytes whose first n bytes are the
chunk, nothing is written (the record of outside calls is unchanged), and the
offset is set to n, which is the old offset plus n when the old offset is 0. -/
theorem inbound_chunk_buffered (st : State) (chunk : List Nat) (ws : List sys_write)
    (hfd : st.os.fd < 0) (hbuf : st.os.buf = bufptr.null)
    (hne : chunk ≠ []) (hlen : chunk.length ≤ st.os.rx_mtu) :
    ∃ b, obex_read st chunk.length chunk ws =
        some ({ st with os := { st.os with
                  buf := bufptr.live b, offset := (chunk.length : Int) } }, 0) ∧
      b.take chunk.length = chunk ∧ b.length = st.os.rx_mtu ∧
      (st.os.offset = 0 → (chunk.length : Int) = st.os.offset + chunk.length) := by
  have hpos : 0 < chunk.length := List.length_pos.2 hne
  refine ⟨chunk.take chunk.length ++ (List.replicate st.os.rx_mtu 0).drop chunk.length,
    ?_, ?_, ?_, ?_⟩
  · unfold obex_read
    have h0 : ¬ ((chunk.length : Int) < 0) := by omega
    have h1 : ¬ ((chunk.length : Int) > (st.os.rx_mtu : Int)) := by omega
    have h2 : st.os.fd < 0 ∧ (chunk.length : Int) > 0 := ⟨hfd, by omega⟩
    rw [if_neg h0, if_neg h1, if_pos h2, if_neg (by simp [hbuf])]
    simp
  · simp
  · simp only [List.take_length, List.length_append, List.length_drop, List.length_replicate]
    omega
  · intro h
    rw [h]
    simp

/-- C12, amended, at a chunk of three bytes on a session whose `rx_mtu` is 4. -/
theorem inbound_chunk_buffered_witness :
    ∃ b, obex_read (sample_state { sample_opp_session with rx_mtu := 4 }
          (sample_request [] []) 0) ([1, 2, 3] : List Nat).length [1, 2, 3] [] =
        some ({ sample_state { sample_opp_session with rx_mtu := 4 }
            (sample_request [] []) 0 with
          os := { sample_opp_session with
            rx_mtu := 4, buf := bufptr.live b,
            offset := (([1, 2, 3] : List Nat).length : Int) } }, 0) ∧
      b.take ([1, 2, 3] : List Nat).length = [1, 2, 3] :=
  (inbound_chunk_buffered (sample_state { sample_opp_session with rx_mtu := 4 }
      (sample_request [] []) 0) [1, 2, 3] [] (by decide) rfl (by decide) (by decide)).elim
    (fun b h => ⟨b, h.1, h.2.1⟩)

/-! ### Abort, Request-done, Request-hint -/

/-- What the Abort event does in every state: name, type and buffer absent,
offset and size 0, response success; a descriptor above 0 is closed and the
field set to -1, any other descriptor value is left as it is. -/
theorem abort_event_eq (env : Env) (cmd : Nat) (inp : Input) (st : State) :
    obex_event env OBEX_EV_ABORT cmd inp st =
      some { st with
        os := { st.os with
          name := none, type := none, buf := bufptr.null,
          fd := if st.os.fd > 0 then -1 else st.os.fd, offset := 0, size := 0 }
        obj := { st.obj with rsp := (OBEX_RSP_SUCCESS, OBEX_RSP_SUCCESS) }
        log := st.log ++ (if st.os.fd > 0 then [action.close st.os.fd] else []) } := by
  by_cases hpos : st.os.fd > 0
  · simp [obex_event, os_reset_session, hpos, emit, set_rsp, OBEX_ObjectSetRsp, OBEX_EV_ABORT,
      OBEX_EV_PROGRESS]
  · simp [obex_event, os_reset_session, hpos, set_rsp, OBEX_ObjectSetRsp, OBEX_EV_ABORT,
      OBEX_EV_PROGRESS]

/-- C13 at the descriptor value 0: the Abort event resets name, type, buffer,
offset and size and answers success, but the test in `os_reset_session` is
`fd > 0`, so descriptor 0 is not closed and the field stays 0 instead of
becoming -1. -/
theorem abort_keeps_descriptor_zero :
    obex_event (sample_opp_env 0) OBEX_EV_ABORT OBEX_CMD_PUT sample_input
        (sample_state { sample_opp_session with
            name := some [97], buf := bufptr.live [1, 2], fd := 0, offset := 2, size := 9 }
          (sample_request [] []) 0) =
      some { sample_state { sample_opp_session with fd := 0 } (sample_request [] []) 0 with
        obj := { sample_request [] [] with rsp := (OBEX_RSP_SUCCESS, OBEX_RSP_SUCCESS) }
        log := [] } ∧
    ({ sample_opp_session with fd := 0 } : obex_session).fd ≠ -1 := by
  decide

/-- C14. The Request-done event for GET or PUT records one
`emit_transfer_completed` for the session's connection id, with the flag
true exactly when offset equals size at that moment, and then runs
`os_reset_session` (which closes a descriptor above 0): name, type and buffer
absent, offset and size 0. Request-done for a command other than GET, PUT and
DISCONNECT changes nothing and records nothing. -/
theorem reqdone_notifies_and_resets (env : Env) (cmd : Nat) (inp : Input) (st : State) :
    ((cmd = OBEX_CMD_GET ∨ cmd = OBEX_CMD_PUT) →
      obex_event env OBEX_EV_REQDONE cmd inp st =
        some (os_reset_session { st with log := st.log ++
          [action.emit_transfer_completed st.os.cid (decide (st.os.offset = st.os.size))] }) ∧
      obex_event env OBEX_EV_REQDONE cmd inp st =
        some { st with
          os := { st.os with
            name := none, type := none, buf := bufptr.null,
            fd := if st.os.fd > 0 then -1 else st.os.fd, offset := 0, size := 0 }
          log := st.log ++
            action.emit_transfer_completed st.os.cid (decide (st.os.offset = st.os.size))
              :: (if st.os.fd > 0 then [action.close st.os.fd] else []) }) ∧
    (cmd ≠ OBEX_CMD_GET → cmd ≠ OBEX_CMD_PUT → cmd ≠ OBEX_CMD_DISCONNECT →
      obex_event env OBEX_EV_REQDONE cmd inp st = some st) := by
  have hev : obex_event env OBEX_EV_REQDONE cmd inp st = some (ev_reqdone st cmd) := by
    simp [obex_event, OBEX_EV_REQDONE, OBEX_EV_PROGRESS, OBEX_EV_ABORT]
  constructor
  · intro hc
    have hnd : cmd ≠ OBEX_CMD_DISCONNECT := by
      rcases hc with h | h <;> rw [h] <;> decide
    have hc1 : cmd = OBEX_CMD_PUT ∨ cmd = OBEX_CMD_GET := hc.symm
    have hrd : ev_reqdone st cmd = os_reset_session { st with log := st.log ++
        [action.emit_transfer_completed st.os.cid (decide (st.os.offset = st.os.size))] } := by
      simp only [ev_reqdone, if_neg hnd, if_pos hc1, emit]
    refine ⟨by rw [hev, hrd], ?_⟩
    rw [hev, hrd]
    by_cases hpos : st.os.fd > 0
    · simp [os_reset_session, hpos, emit]
    · simp [os_reset_session, hpos]
  · intro h1 h2 h3
    rw [hev]
    simp [ev_reqdone, h1, h2, h3]

/-- C17. The Request-hint event answers continue/success for PUT, GET,
SETPATH, CONNECT and DISCONNECT and not implemented for every other command
code; for PUT it sets `checked` to false (and switches body streaming on);
for every other code the session is unchanged; the id counter and the record
of outside calls are unchanged for all codes. -/
theorem reqhint_response (env : Env) (cmd : Nat) (inp : Input) (st : State) :
    ∃ st1, obex_event env OBEX_EV_REQHINT cmd inp st = some st1 ∧
      st1.obj.rsp =
        (if cmd = OBEX_CMD_PUT ∨ cmd = OBEX_CMD_GET ∨ cmd = OBEX_CMD_SETPATH
            ∨ cmd = OBEX_CMD_CONNECT ∨ cmd = OBEX_CMD_DISCONNECT
          then (OBEX_RSP_CONTINUE, OBEX_RSP_SUCCESS)
          else (OBEX_RSP_NOT_IMPLEMENTED, OBEX_RSP_NOT_IMPLEMENTED)) ∧
      st1.os = (if cmd = OBEX_CMD_PUT then { st.os with checked := false } else st.os) ∧
      st1.cid = st.cid ∧ st1.log = st.log ∧
      st1.obj.headers = st.obj.headers ∧ st1.obj.txhdrs = st.obj.txhdrs := by
  refine ⟨ev_reqhint st cmd, ?_, ?_⟩
  · simp [obex_event, OBEX_EV_REQHINT, OBEX_EV_REQDONE, OBEX_EV_PROGRESS, OBEX_EV_ABORT]
  · unfold ev_reqhint
    by_cases hp : cmd = OBEX_CMD_PUT
    · simp [hp, set_rsp, OBEX_ObjectSetRsp]
    · by_cases ho : cmd = OBEX_CMD_GET ∨ cmd = OBEX_CMD_SETPATH ∨ cmd = OBEX_CMD_CONNECT
          ∨ cmd = OBEX_CMD_DISCONNECT
      · simp [hp, ho, set_rsp, OBEX_ObjectSetRsp]
      · simp only [hp, ho, if_false, false_or, set_rsp, OBEX_ObjectSetRsp]
        simp

/-! ### parse_iso8610 -/

/-- The conversions of `scan_date` all succeed exactly when at least six
fields are stored. -/
theorem scan_date_none_iff (date : List Nat) :
    scan_date date = none ↔ scan_count date < 6 := by
  cases h1 : scan_uint 4 date with
  | none => simp [scan_date, scan_count, h1]
  | some p1 =>
    obtain ⟨y, r1⟩ := p1
    cases h2 : scan_uint 2 r1 with
    | none => simp [scan_date, scan_count, h1, h2]
    | some p2 =>
      obtain ⟨mo, r2⟩ := p2
      cases h3 : scan_uint 2 r2 with
      | none => simp [scan_date, scan_count, h1, h2, h3]
      | some p3 =>
        obtain ⟨d, r3⟩ := p3
        cases h4 : scan_T r3 with
        | none => simp [scan_date, scan_count, h1, h2, h3, h4]
        | some r4 =>
          cases h5 : scan_uint 2 r4 with
          | none => simp [scan_date, scan_count, h1, h2, h3, h4, h5]
          | some p5 =>
            obtain ⟨h, r5⟩ := p5
            cases h6 : scan_uint 2 r5 with
            | none => simp [scan_date, scan_count, h1, h2, h3, h4, h5, h6]
            | some p6 =>
              obtain ⟨mi, r6⟩ := p6
              cases h7 : scan_uint 2 r6 with
              | none => simp [scan_date, scan_count, h1, h2, h3, h4, h5, h6, h7]
              | some p7 =>
                obtain ⟨sec, r7⟩ := p7
                have hd : scan_date date = some (y, mo, d, h, mi, sec, !r7.isEmpty) := by
                  simp only [scan_date, h1, h2, h3, h4, h5, h6, h7, Option.bind_eq_bind,
                    Option.some_bind, Option.pure_def]
                have hc : scan_count date = if r7.isEmpty then 6 else 7 := by
                  simp only [scan_count, h1, h2, h3, h4, h5, h6, h7]
                rw [hd, hc]
                split_ifs <;> simp

/-- C15. Whenever fewer than six fields are read from the first `size` bytes
of `val` in the layout of the format (four-digit year, two-digit month and
day, `T`, two-digit hour, minute and second), `parse_iso8610` returns -1; the
result depends on the first `size` bytes only. So it is, for instance, for the
empty string, for a date with no `T`, for a time with two two-digit fields,
and for a complete date cut off after 13 bytes. -/
theorem parse_iso8610_too_few_fields (env : Env) (val : List Nat) (size : Nat) :
    (scan_count ((val.take size).takeWhile (fun c => c ≠ 0)) < 6 →
      parse_iso8610 env val size = -1) ∧
    (∀ val1 : List Nat, val1.take size = val.take size →
      parse_iso8610 env val1 size = parse_iso8610 env val size) ∧
    parse_iso8610 env (ascii "") 0 = -1 ∧
    parse_iso8610 env (ascii "20120101120000") 14 = -1 ∧
    parse_iso8610 env (ascii "20120101T1200") 13 = -1 ∧
    parse_iso8610 env (ascii "20120101T120000") 13 = -1 := by
  have key : ∀ (v : List Nat) (n : Nat),
      scan_count ((v.take n).takeWhile (fun c => c ≠ 0)) < 6 →
        parse_iso8610 env v n = -1 := by
    intro v n hc
    have hn := (scan_date_none_iff _).2 hc
    simp only [parse_iso8610, hn]
  refine ⟨key val size, ?_, key _ _ (by decide), key _ _ (by decide), key _ _ (by decide),
    key _ _ (by decide)⟩
  intro val1 h1
  simp only [parse_iso8610, h1]

/-- C16, as stated, fails. In a zone two hours east of UTC, a build with
HAVE_TM_GMTOFF reads `tm_gmtoff` from the zeroed `struct tm` before `mktime`
fills it, and a build with neither macro leaves `tz_offset` at 0: the input
with a trailing `Z` gives the same value as the one without, the plain
conversion of local 2012-01-01 12:00:00, not that value plus 7200. -/
theorem parse_iso8610_zone_offset_missing :
    sample_mktime 7200 sample_noon = 1325412000 ∧
    parse_iso8610 (sample_time_env tz_config.have_tm_gmtoff 7200)
      (ascii "20120101T120000") 15 = 1325412000 ∧
    parse_iso8610 (sample_time_env tz_config.have_tm_gmtoff 7200)
      (ascii "20120101T120000Z") 16 = 1325412000 ∧
    parse_iso8610 (sample_time_env tz_config.neither 7200)
      (ascii "20120101T120000Z") 16 = 1325412000 ∧
    parse_iso8610 (sample_time_env tz_config.have_tm_gmtoff 7200)
      (ascii "20120101T120000Z") 16 ≠ 1325412000 + 7200 := by
  decide

/-- C16, amended. When all six numeric fields Y, M, D, h, m, s are read,
`parse_iso8610` returns C + A, where C is `mktime` of the broken-down time
with year Y - 1900, month M - 1, day D, hour h, minute m, second s and
daylight saving unknown (-1); A is 0 when nothing follows the seconds, and
when a character follows it is the value `tz_offset` has before `mktime` is
called: minus the global `timezone` in a build with HAVE_TIMEZONE, 0 in a
build with neither macro, and 0 as well with HAVE_TM_GMTOFF, where the field
is read from the zeroed `struct tm`. -/
theorem parse_iso8610_value (env : Env) (val : List Nat) (size : Nat)
    (y mo d h mi s : Int) (seven : Bool)
    (hscan : scan_date ((val.take size).takeWhile (fun c => c ≠ 0))
      = some (y, mo, d, h, mi, s, seven)) :
    parse_iso8610 env val size =
      env.mktime { tm_year := y - 1900, tm_mon := mo - 1, tm_mday := d,
                   tm_hour := h, tm_min := mi, tm_sec := s, tm_isdst := -1 }
        + (if seven = true then
            (match env.tz with
             | tz_config.have_timezone timezone => -timezone
             | _ => 0)
           else 0) := by
  simp only [parse_iso8610, hscan]
  cases seven with
  | false => simp
  | true =>
    cases htz : env.tz with
    | have_tm_gmtoff => simp [tz_offset]
    | have_timezone z => simp [tz_offset]
    | neither => simp [tz_offset]

/-- C16, amended, at "20120101T120000Z" in a HAVE_TIMEZONE build two hours
east of UTC (`timezone` = -7200). -/
theorem parse_iso8610_value_witness :
    scan_date (((ascii "20120101T120000Z").take 16).takeWhile (fun c => c ≠ 0))
      = some (2012, 1, 1, 12, 0, 0, true) ∧
    parse_iso8610 (sample_time_env (tz_config.have_timezone (-7200)) 7200)
        (ascii "20120101T120000Z") 16 =
      (sample_time_env (tz_config.have_timezone (-7200)) 7200).mktime
          { tm_year := 2012 - 1900, tm_mon := 1 - 1, tm_mday := 1,
            tm_hour := 12, tm_min := 0, tm_sec := 0, tm_isdst := -1 }
        + (if true = true then
            (match (sample_time_env (tz_config.have_timezone (-7200)) 7200).tz with
             | tz_config.have_timezone timezone => -timezone
             | _ => 0)
           else 0) :=
  ⟨rfl, parse_iso8610_value (sample_time_env (tz_config.have_timezone (-7200)) 7200)
    (ascii "20120101T120000Z") 16 2012 1 1 12 0 0 true rfl⟩

/-! ### Teardown -/

/-- C20, as stated, fails: the flag of the notification is computed, not
fixed. A teardown with descriptor 3 open and offset equal to size (10 of 10
bytes) records `emit_transfer_completed` with success true. -/
theorem destroy_reports_success_when_complete :
    (obex_handle_destroy (sample_state { sample_ftp_session 7 with
        fd := 3, offset := 10, size := 10 } (sample_request [] []) 7)).log =
      [action.emit_transfer_completed 7 true, action.unregister_transfer 7,
       action.close 3, action.session_free, action.cleanup] ∧
    action.emit_transfer_completed 7 false ∉
      (obex_handle_destroy (sample_state { sample_ftp_session 7 with
        fd := 3, offset := 10, size := 10 } (sample_request [] []) 7)).log := by
  decide

/-- C20, amended. When `obex_handle_destroy` runs with a descriptor open
(fd at least 0), exactly one `emit_transfer_completed` is recorded for the
session's connection id, with the flag true exactly when offset equals size,
before `unregister_transfer`, the release of the session and the cleanup;
with no descriptor open (fd below 0) no `emit_transfer_completed` is
recorded. The session release closes the descriptor only when it is above 0. -/
theorem destroy_notifies_when_descriptor_open (st : State) :
    (st.os.fd ≥ 0 →
      (obex_handle_destroy st).log = st.log ++
        [action.emit_transfer_completed st.os.cid (decide (st.os.offset = st.os.size)),
         action.unregister_transfer st.os.cid] ++
        (if st.os.fd > 0 then [action.close st.os.fd] else []) ++
        [action.session_free, action.cleanup]) ∧
    (st.os.fd < 0 →
      (obex_handle_destroy st).log = st.log ++
        [action.unregister_transfer st.os.cid, action.session_free, action.cleanup]) := by
  constructor
  · intro hfd
    by_cases hpos : st.os.fd > 0
    · simp [obex_handle_destroy, obex_session_free, emit, hfd, hpos]
    · simp [obex_handle_destroy, obex_session_free, emit, hfd, hpos]
  · intro hfd
    have h1 : ¬ st.os.fd ≥ 0 := by omega
    have h2 : ¬ st.os.fd > 0 := by omega
    simp [obex_handle_destroy, obex_session_free, emit, h1, h2]

/-! ### Length of the BODY headers of obex_write -/

/-- C18, as stated, fails on the branch without a descriptor: with an
in-memory buffer of five bytes, size 5, offset 0 and `tx_mtu` 2, `obex_write`
appends one more-data BODY header of length 5, above `tx_mtu`. -/
theorem memory_body_header_exceeds_mtu :
    (obex_write (sample_state { sample_opp_session with
          tx_mtu := 2, buf := bufptr.live [1, 2, 3, 4, 5], size := 5, offset := 0 }
        (sample_request [] []) 0) (sys_read.data [])).1.obj.txhdrs =
      [{ hi := OBEX_HDR_BODY, hd := ⟨0, [1, 2, 3, 4, 5]⟩, hlen := 5,
         flags := OBEX_FL_STREAM_DATA }] ∧
    (sample_state { sample_opp_session with
          tx_mtu := 2, buf := bufptr.live [1, 2, 3, 4, 5], size := 5, offset := 0 }
        (sample_request [] []) 0).os.fd < 0 ∧
    ¬ (5 ≤ (sample_state { sample_opp_session with
          tx_mtu := 2, buf := bufptr.live [1, 2, 3, 4, 5], size := 5, offset := 0 }
        (sample_request [] []) 0).os.tx_mtu) := by
  decide

/-- C18, amended. With a descriptor open and `read` returning at most
`tx_mtu` bytes (`tx_mtu` below 2^31), `obex_write` appends at most one header,
a BODY header, and when it is flagged more-data its length is the number of
bytes just read, between 1 and `tx_mtu`. With no descriptor and a buffer
present, the one header appended when size minus offset is not 0 is flagged
more-data and has that difference as its length, whatever `tx_mtu` is. -/
theorem body_header_length (st : State) (rd : sys_read)
    (hM : st.os.tx_mtu < 2 ^ 31)
    (hrd : ∀ bytes, rd = sys_read.data bytes → bytes.length ≤ st.os.tx_mtu) :
    (0 ≤ st.os.fd →
      ∃ new, (obex_write st rd).1.obj.txhdrs = st.obj.txhdrs ++ new ∧ new.length ≤ 1 ∧
        ∀ t ∈ new, t.hi = OBEX_HDR_BODY ∧
          (t.flags = OBEX_FL_STREAM_DATA →
            1 ≤ t.hlen ∧ t.hlen ≤ st.os.tx_mtu ∧
              ∃ bytes, rd = sys_read.data bytes ∧ t.hlen = bytes.length)) ∧
    (st.os.fd < 0 → st.os.buf ≠ bufptr.null →
      to_gint32 (st.os.size - st.os.offset) ≠ 0 →
      (obex_write st rd).1.obj.txhdrs = st.obj.txhdrs ++
        [{ hi := OBEX_HDR_BODY, hd := ⟨0, buf_bytes st.os.buf⟩,
           hlen := (to_gint32 (st.os.size - st.os.offset) % 2 ^ 32).toNat,
           flags := OBEX_FL_STREAM_DATA }]) := by
  constructor
  · intro hfd
    have hnot : ¬ st.os.fd < 0 := not_lt.2 hfd
    cases rd with
    | error err =>
      exact ⟨[], by simp [obex_write, hnot], by simp, by simp⟩
    | data bytes =>
      have hb := hrd bytes rfl
      have hb31 : bytes.length < 2 ^ 31 := lt_of_le_of_lt hb hM
      by_cases hz : bytes.length = 0
      · have hnil : bytes = [] := List.length_eq_zero.1 hz
        subst hnil
        refine ⟨[{ hi := OBEX_HDR_BODY, hd := ⟨0, []⟩, hlen := 0,
                   flags := OBEX_FL_STREAM_DATAEND }], ?_, by simp, ?_⟩
        · rw [obex_write_eof st hfd]
        · intro t ht
          simp only [List.mem_singleton] at ht
          subst ht
          exact ⟨rfl, fun h => absurd h (by decide)⟩
      · have hne : ¬ ((bytes.length : Int) = 0) := by omega
        refine ⟨[{ hi := OBEX_HDR_BODY, hd := ⟨0, buf_bytes (buf_store st.os.buf bytes)⟩,
                   hlen := bytes.length, flags := OBEX_FL_STREAM_DATA }], ?_, by simp, ?_⟩
        · simp only [obex_write, hnot, if_false, obex_write_add_header,
            to_gint32_of_small _ hb31, hne, OBEX_ObjectAddHeader, toNat_mod_of_small _ hb31]
        · intro t ht
          simp only [List.mem_singleton] at ht
          subst ht
          exact ⟨rfl, fun _ => ⟨Nat.pos_of_ne_zero hz, hb, bytes, rfl, rfl⟩⟩
  · intro hfd hbuf hlen
    simp only [obex_write, hfd, if_true, hbuf, if_false, obex_write_add_header, hlen,
      OBEX_ObjectAddHeader]

/-- C18, amended, at a read of two bytes into a two-byte buffer on
descriptor 3. -/
theorem body_header_length_witness :
    ∃ new, (obex_write (sample_state { sample_opp_session with
            tx_mtu := 2, buf := bufptr.live [0, 0], fd := 3 }
          (sample_request [] []) 0) (sys_read.data [7, 8])).1.obj.txhdrs =
        (sample_request [] []).txhdrs ++ new ∧ new.length ≤ 1 :=
  ((body_header_length (sample_state { sample_opp_session with
        tx_mtu := 2, buf := bufptr.live [0, 0], fd := 3 } (sample_request [] []) 0)
      (sys_read.data [7, 8]) (by decide)
      (by intro bytes h; cases h; decide)).1 (by decide)).elim
    (fun new h => ⟨new, h.1, h.2.1⟩)

/-! ### Inbound streaming: write-through -/

theorem take_drop_split (l : List Nat) (a n m : Nat) (h : n ≤ m) :
    (l.drop a).take n ++ (l.drop (a + n)).take (m - n) = (l.drop a).take m := by
  have h1 : l.drop (a + n) = (l.drop a).drop n := by
    rw [List.drop_drop, Nat.add_comm]
  have h2 : m = n + (m - n) := by omega
  rw [h1]
  conv_rhs => rw [h2, List.take_add]

/-- The write loop over outcomes whose only errors are EINTR and whose
counts add up to what is left of the chunk: it ends with `len = size`, and the
bytes written are the rest of the chunk, in order. -/
theorem obex_read_loop_complete (fd : Int) (buffer : List Nat) (size : Nat) :
    ∀ (ws : List sys_write) (len : Nat), only_eintr ws = true →
      len + write_total ws = size →
      ∃ acts, obex_read_loop fd buffer (size : Int) (len : Int) ws
          = some (acts, Sum.inr (size : Int)) ∧
        written_bytes acts = (buffer.drop len).take (size - len) := by
  intro ws
  induction ws with
  | nil =>
    intro len _ htot
    simp only [write_total, Nat.add_zero] at htot
    subst htot
    refine ⟨[], ?_, by simp [written_bytes]⟩
    unfold obex_read_loop
    simp
  | cons w rest ih =>
    intro len hok htot
    by_cases hlt : len < size
    · have hlt1 : (len : Int) < (size : Int) := by exact_mod_cast hlt
      cases w with
      | error e =>
        simp only [only_eintr, Bool.and_eq_true, decide_eq_true_eq] at hok
        simp only [write_total] at htot
        obtain ⟨acts, h1, h2⟩ := ih len hok.2 htot
        refine ⟨acts, ?_, h2⟩
        unfold obex_read_loop
        simp only [hlt1, if_true, hok.1]
        exact h1
      | wrote n =>
        simp only [only_eintr] at hok
        simp only [write_total] at htot
        obtain ⟨acts, h1, h2⟩ := ih (len + n) hok (by omega)
        refine ⟨action.write fd ((buffer.drop len).take n) :: acts, ?_, ?_⟩
        · unfold obex_read_loop
          simp only [hlt1, if_true]
          have hc : ((len : Int) + (n : Int)) = ((len + n : Nat) : Int) := by push_cast; rfl
          rw [hc, h1]
          simp
        · simp only [written_bytes, h2]
          have hsub : size - (len + n) = (size - len) - n := by omega
          rw [hsub]
          exact take_drop_split buffer len n (size - len) (by omega)
    · have hge : size ≤ len := not_lt.1 hlt
      have heq : len = size := by omega
      subst heq
      refine ⟨[], ?_, by simp [written_bytes]⟩
      unfold obex_read_loop
      simp

/-- The write loop over outcomes that, after partial writes and EINTR,
report another error before the chunk is complete: the loop returns minus
that error at once; the bytes written before it are a part of the chunk. -/
theorem obex_read_loop_error (fd : Int) (buffer : List Nat) (size : Nat) (e : Nat)
    (he : e ≠ EINTR) (rest : List sys_write) :
    ∀ (pre : List sys_write) (len : Nat), only_eintr pre = true →
      len + write_total pre < size →
      ∃ acts, obex_read_loop fd buffer (size : Int) (len : Int)
            (pre ++ sys_write.error e :: rest)
          = some (acts, Sum.inl (-(e : Int))) ∧
        written_bytes acts = (buffer.drop len).take (write_total pre) := by
  intro pre
  induction pre with
  | nil =>
    intro len _ htot
    simp only [write_total, Nat.add_zero] at htot
    have hlt1 : (len : Int) < (size : Int) := by exact_mod_cast htot
    refine ⟨[], ?_, by simp [written_bytes, write_total]⟩
    simp only [List.nil_append]
    unfold obex_read_loop
    simp only [hlt1, if_true, he, if_false]
  | cons w pre1 ih =>
    intro len hok htot
    cases w with
    | error e1 =>
      simp only [only_eintr, Bool.and_eq_true, decide_eq_true_eq] at hok
      simp only [write_total] at htot
      have hlt1 : (len : Int) < (size : Int) := by
        have : len < size := by omega
        exact_mod_cast this
      obtain ⟨acts, h1, h2⟩ := ih len hok.2 htot
      refine ⟨acts, ?_, by simpa [write_total] using h2⟩
      simp only [List.cons_append]
      unfold obex_read_loop
      simp only [hlt1, if_true, hok.1]
      exact h1
    | wrote n =>
      simp only [only_eintr] at hok
      simp only [write_total] at htot
      have hlt1 : (len : Int) < (size : Int) := by
        have : len < size := by omega
        exact_mod_cast this
      obtain ⟨acts, h1, h2⟩ := ih (len + n) hok (by omega)
      refine ⟨action.write fd ((buffer.drop len).take n) :: acts, ?_, ?_⟩
      · simp only [List.cons_append]
        unfold obex_read_loop
        simp only [hlt1, if_true]
        have hc : ((len : Int) + (n : Int)) = ((len + n : Nat) : Int) := by push_cast; rfl
        rw [hc, h1]
        simp
      · simp only [written_bytes, h2, write_total]
        have := take_drop_split buffer len n (n + write_total pre1) (by omega)
        simpa using this

/-- C19, as stated, fails on the error path: the offset is advanced only
when the loop completes. With descriptor 3 open and a chunk of four bytes,
`write` takes two bytes and then fails with EIO: `obex_read` returns -5, two
bytes have been written, and the offset is still 0. -/
theorem partial_write_not_counted :
    obex_read (sample_state { sample_opp_session with fd := 3 } (sample_request [] []) 0)
        4 [1, 2, 3, 4] [sys_write.wrote 2, sys_write.error EIO] =
      some ({ sample_state { sample_opp_session with fd := 3 } (sample_request [] []) 0 with
          log := [action.write 3 [1, 2]] }, -5) ∧
    (written_bytes [action.write 3 [1, 2]]).length = 2 ∧
    ({ sample_opp_session with fd := 3 } : obex_session).offset ≠
      sample_opp_session.offset + 2 := by
  decide

/-- C19, amended. With a descriptor open and a chunk of n bytes, n at most
`rx_mtu`: for every sequence of `write` outcomes (partial writes, EINTR)
that completes the chunk, `obex_read` returns 0, the bytes written are
exactly the chunk in order, EINTR being retried at the same position, and the
offset has advanced by n; for every sequence that reports another error
before the chunk is complete, `obex_read` returns minus that error at once,
the bytes written so far are the beginning of the chunk, and the offset is
left as it was. -/
theorem inbound_write_through (st : State) (chunk : List Nat)
    (hfd : 0 ≤ st.os.fd) (hlen : chunk.length ≤ st.os.rx_mtu) :
    (∀ ws, only_eintr ws = true → write_total ws = chunk.length →
      ∃ acts, obex_read st chunk.length chunk ws =
          some ({ st with
            log := st.log ++ acts
            os := { st.os with offset := st.os.offset + chunk.length } }, 0) ∧
        written_bytes acts = chunk) ∧
    (∀ pre e rest, only_eintr pre = true → write_total pre < chunk.length → e ≠ EINTR →
      ∃ acts, obex_read st chunk.length chunk (pre ++ sys_write.error e :: rest) =
          some ({ st with log := st.log ++ acts }, -(e : Int)) ∧
        written_bytes acts = chunk.take (write_total pre)) := by
  have h0 : ¬ ((chunk.length : Int) < 0) := by omega
  have h1 : ¬ ((chunk.length : Int) > (st.os.rx_mtu : Int)) := by omega
  have h2 : ¬ (st.os.fd < 0 ∧ (chunk.length : Int) > 0) := fun h => absurd h.1 (not_lt.2 hfd)
  constructor
  · intro ws hok htot
    obtain ⟨acts, hl, hw⟩ := obex_read_loop_complete st.os.fd chunk chunk.length ws 0 hok
      (by omega)
    refine ⟨acts, ?_, by simpa using hw⟩
    have hl0 : obex_read_loop st.os.fd chunk (chunk.length : Int) 0 ws
        = some (acts, Sum.inr (chunk.length : Int)) := by
      simpa using hl
    simp only [obex_read, if_neg h0, if_neg h1, if_neg h2, hl0]
  · intro pre e rest hok htot he
    obtain ⟨acts, hl, hw⟩ := obex_read_loop_error st.os.fd chunk chunk.length e he rest pre 0
      hok (by omega)
    refine ⟨acts, ?_, by simpa using hw⟩
    have hl0 : obex_read_loop st.os.fd chunk (chunk.length : Int) 0
        (pre ++ sys_write.error e :: rest) = some (acts, Sum.inl (-(e : Int))) := by
      simpa using hl
    simp only [obex_read, if_neg h0, if_neg h1, if_neg h2, hl0]

/-- C19, amended, at a chunk of four bytes written as 2 bytes, EINTR, 2
bytes on descriptor 3. -/
theorem inbound_write_through_witness :
    ∃ acts, obex_read (sample_state { sample_opp_session with fd := 3 }
          (sample_request [] []) 0) ([1, 2, 3, 4] : List Nat).length [1, 2, 3, 4]
          [sys_write.wrote 2, sys_write.error EINTR, sys_write.wrote 2] =
        some ({ sample_state { sample_opp_session with fd := 3 } (sample_request [] []) 0 with
          log := (sample_state { sample_opp_session with fd := 3 }
            (sample_request [] []) 0).log ++ acts
          os := { sample_opp_session with
            fd := 3
            offset := ({ sample_opp_session with fd := 3 } : obex_session).offset
              + (([1, 2, 3, 4] : List Nat).length : Int) } }, 0) ∧
      written_bytes acts = [1, 2, 3, 4] :=
  (inbound_write_through (sample_state { sample_opp_session with fd := 3 }
      (sample_request [] []) 0) [1, 2, 3, 4] (by decide) (by decide)).1
    [sys_write.wrote 2, sys_write.error EINTR, sys_write.wrote 2] (by decide) (by decide)

/-! ### Read error in obex_write -/

/-- What `obex_write` does when `read` on the open descriptor fails: the
negated error is returned, no header is appended, the offset is as before,
and the buffer is handed to `g_free` while the field keeps its value. -/
theorem obex_write_read_error (st : State) (err : Nat) (hfd : 0 ≤ st.os.fd) :
    obex_write st (sys_read.error err) =
      ({ st with os := { st.os with buf := g_free st.os.buf } }, -(err : Int)) := by
  have hnot : ¬ st.os.fd < 0 := not_lt.2 hfd
  simp only [obex_write, hnot, if_false]

/-- C21 at a read that fails with EIO on descriptor 3 with a live two-byte
buffer: `obex_write` returns -5, appends no header and leaves the offset at
4, but the buffer field is not cleared: it still holds the released pointer,
so the release in the following Abort event is handed that block again. -/
theorem read_error_leaves_buffer_pointer :
    obex_write (sample_state { sample_opp_session with
          fd := 3, buf := bufptr.live [1, 2], offset := 4, size := 9 }
        (sample_request [] []) 0) (sys_read.error EIO) =
      (sample_state { sample_opp_session with
          fd := 3, buf := bufptr.dangling, offset := 4, size := 9 }
        (sample_request [] []) 0, -5) ∧
    (obex_write (sample_state { sample_opp_session with
          fd := 3, buf := bufptr.live [1, 2], offset := 4, size := 9 }
        (sample_request [] []) 0) (sys_read.error EIO)).1.os.buf ≠ bufptr.null ∧
    releases_again (obex_write (sample_state { sample_opp_session with
          fd := 3, buf := bufptr.live [1, 2], offset := 4, size := 9 }
        (sample_request [] []) 0) (sys_read.error EIO)).1 = true := by
  decide

/-! ### phonebook_set_folder -/

theorem folder_path_concat (init : List (List Nat)) (last : List Nat) :
    folder_path (init ++ [last]) = folder_path init ++ 47 :: last := by
  simp [folder_path]

theorem parent_path_concat (init : List (List Nat)) (last : List Nat) :
    parent_path (init ++ [last]) = if init = [] then [47] else folder_path init := by
  simp [parent_path, List.dropLast_concat]

theorem folder_path_eq_nil (init : List (List Nat)) :
    folder_path init = [] ↔ init = [] := by
  cases init with
  | nil => simp [folder_path]
  | cons c cs => simp [folder_path]

/-- Taking while a test holds stops in front of the first element that fails it. -/
theorem takeWhile_append_stop (p : Nat → Bool) (a : List Nat) (b : Nat) (c : List Nat)
    (ha : ∀ x ∈ a, p x = true) (hb : p b = false) :
    (a ++ b :: c).takeWhile p = a := by
  induction a with
  | nil => simp [List.takeWhile, hb]
  | cons x xs ih =>
    have hx : p x = true := ha x (List.mem_cons_self _ _)
    simp [List.takeWhile, hx, ih (fun y hy => ha y (List.mem_cons_of_mem _ hy))]

/-- Dropping trailing slashes from a string that ends in another byte changes
nothing. -/
theorem strip_trailing_plain (s : List Nat) (x : Nat) (hx : x ≠ 47) :
    (((s ++ [x]).reverse.dropWhile (fun c => decide (c = 47)))).reverse = s ++ [x] := by
  simp [List.dropWhile, hx]

theorem exists_concat_of_ne_nil (l : List Nat) (h : l ≠ []) :
    ∃ s x, l = s ++ [x] := by
  refine ⟨l.dropLast, l.getLast h, ?_⟩
  exact (List.dropLast_append_getLast h).symm

/-- The basename of an absolute path without a trailing slash is its last
component. -/
theorem basename_folder_path (init : List (List Nat)) (last : List Nat)
    (hlast : last ≠ [] ∧ 47 ∉ last) :
    g_path_get_basename (folder_path (init ++ [last])) = last := by
  obtain ⟨s, x, hs⟩ := exists_concat_of_ne_nil last hlast.1
  have hx : x ≠ 47 := by
    intro h
    apply hlast.2
    rw [hs, h]
    simp
  have hrev : (folder_path (init ++ [last])).reverse
      = last.reverse ++ 47 :: (folder_path init).reverse := by
    rw [folder_path_concat]
    simp
  have hdrop : (folder_path (init ++ [last])).reverse.dropWhile (fun c => decide (c = 47))
      = last.reverse ++ 47 :: (folder_path init).reverse := by
    rw [hrev, hs]
    simp [List.dropWhile, hx]
  have hne : folder_path (init ++ [last]) ≠ [] := by
    rw [folder_path_concat]; simp
  have htake : (last.reverse ++ 47 :: (folder_path init).reverse).takeWhile
      (fun c => decide (c ≠ 47)) = last.reverse := by
    apply takeWhile_append_stop
    · intro y hy
      have : y ∈ last := List.mem_reverse.1 hy
      simp only [decide_eq_true_eq]
      intro h
      exact hlast.2 (h ▸ this)
    · simp
  unfold g_path_get_basename
  simp only [hne, if_false, hdrop]
  rw [if_neg (by rw [hs]; simp), htake]
  simp

theorem g_strrstr_scan_hit (h n : List Nat) (p : Nat)
    (hit : (h.drop p).take n.length = n) : g_strrstr_scan h n p = some p := by
  cases p with
  | zero => simpa [g_strrstr_scan] using hit
  | succ q => simp [g_strrstr_scan, hit]

/-- The last occurrence of the last component in the path is at its end. -/
theorem strrstr_folder_path (init : List (List Nat)) (last : List Nat)
    (hlast : last ≠ []) :
    g_strrstr (folder_path (init ++ [last])) last = some ((folder_path init).length + 1) := by
  have hl : last.length ≠ 0 := by
    intro h; exact hlast (List.length_eq_zero.1 h)
  have hlen : (folder_path (init ++ [last])).length
      = (folder_path init).length + 1 + last.length := by
    rw [folder_path_concat]; simp; omega
  have hsub : (folder_path (init ++ [last])).length - last.length
      = (folder_path init).length + 1 := by omega
  have hge : ¬ (folder_path (init ++ [last])).length < last.length := by omega
  unfold g_strrstr
  rw [if_neg hl, if_neg hge, hsub]
  apply g_strrstr_scan_hit
  rw [folder_path_concat]
  have : folder_path init ++ 47 :: last = (folder_path init ++ [47]) ++ last := by simp
  rw [this, List.drop_left' (by simp)]
  simp

/-- The base that `phonebook_set_folder` computes for flags 0x03 on an
absolute path without a trailing slash. -/
theorem set_folder_up_eq (pb : phonebook_env) (init : List (List Nat)) (last : List Nat)
    (new_folder : Option (List Nat)) (hlast : last ≠ [] ∧ 47 ∉ last) :
    phonebook_set_folder pb (some (folder_path (init ++ [last]))) new_folder 0x03 =
      match new_folder with
      | none => set_folder_done pb (some (parent_path (init ++ [last]))) none
      | some n =>
        if n = [] then set_folder_done pb (some (parent_path (init ++ [last]))) none
        else set_folder_done pb
          (some (g_build_filename [parent_path (init ++ [last]), n])) none := by
  have hroot : folder_path (init ++ [last]) ≠ [47] := by
    rw [folder_path_concat]
    intro h
    have hl := congrArg List.length h
    have : 0 < last.length := List.length_pos.2 hlast.1
    simp at hl
    omega
  have hbase : (if folder_path init = [] then [47]
      else (folder_path (init ++ [last])).take (folder_path init).length)
      = parent_path (init ++ [last]) := by
    rw [parent_path_concat]
    by_cases hi : init = []
    · subst hi
      simp [folder_path]
    · have hne : folder_path init ≠ [] := fun h => hi ((folder_path_eq_nil init).1 h)
      rw [if_neg hne, if_neg hi, folder_path_concat]
      simp
  have hnn : ¬ (((folder_path init).length : Int) < 0) := by omega
  unfold phonebook_set_folder
  simp only [basename_folder_path init last hlast, strrstr_folder_path init last hlast.1]
  cases new_folder with
  | none =>
    simp [hroot, hnn, hbase]
  | some n =>
    by_cases hn : n = []
    · simp [hroot, hnn, hbase, hn]
    · simp [hroot, hnn, hbase, hn, va_elements]

theorem dropWhile_slash_plain (a : Nat) (l : List Nat) (ha : a ≠ 47) :
    (a :: l).dropWhile (fun c => decide (c = 47)) = a :: l := by
  simp [List.dropWhile, ha]

/-- Joining "/" and a name without slashes gives the name after one slash. -/
theorem build_filename_root (a y : Nat) (l s : List Nat) (hname : a :: l = s ++ [y])
    (ha : a ≠ 47) (hy : y ≠ 47) :
    g_build_filename [[47], a :: l] = 47 :: a :: l := by
  have hstrip := strip_trailing_plain s y hy
  rw [← hname] at hstrip
  simp only [g_build_filename, List.foldl, build_step, dropWhile_slash_plain a l ha, hstrip]
  simp [List.dropWhile, List.takeWhile]

/-- Joining a path that starts with one slash and does not end with one and
a name without slashes puts one slash between them. -/
theorem build_filename_two (a b x y : Nat) (l u m s : List Nat)
    (ht : a :: l = u ++ [x]) (hname : b :: m = s ++ [y])
    (ha : a ≠ 47) (hx : x ≠ 47) (hb : b ≠ 47) (hy : y ≠ 47) :
    g_build_filename [47 :: a :: l, b :: m] = 47 :: a :: l ++ 47 :: b :: m := by
  have hs1 := strip_trailing_plain u x hx
  rw [← ht] at hs1
  have hs2 := strip_trailing_plain s y hy
  rw [← hname] at hs2
  have hd1 : (47 :: a :: l).dropWhile (fun c => decide (c = 47)) = a :: l := by
    simp [List.dropWhile, ha]
  have ht1 : (47 :: a :: l).takeWhile (fun c => decide (c = 47)) = [47] := by
    simp [List.takeWhile, ha]
  simp only [g_build_filename, List.foldl, build_step, hd1, ht1, hs1,
    dropWhile_slash_plain b m hb, hs2]
  simp

theorem plain_shape (c : List Nat) (hc : c ≠ [] ∧ 47 ∉ c) :
    ∃ a l s y, c = a :: l ∧ c = s ++ [y] ∧ a ≠ 47 ∧ y ≠ 47 := by
  obtain ⟨s, y, hs⟩ := exists_concat_of_ne_nil c hc.1
  cases hcl : c with
  | nil => exact absurd hcl hc.1
  | cons a l =>
    refine ⟨a, l, s, y, rfl, by rw [← hcl]; exact hs, ?_, ?_⟩
    · intro h
      apply hc.2
      rw [hcl, h]
      simp
    · intro h
      apply hc.2
      rw [hs, h]
      simp

/-- An absolute path of at least one component: one slash, then a string
that neither starts nor ends with a slash. -/
theorem folder_path_shape (init : List (List Nat)) (hne : init ≠ [])
    (hinit : ∀ c ∈ init, c ≠ [] ∧ 47 ∉ c) :
    ∃ a l u x, folder_path init = 47 :: a :: l ∧ a :: l = u ++ [x] ∧ a ≠ 47 ∧ x ≠ 47 := by
  cases init with
  | nil => exact absurd rfl hne
  | cons c cs =>
    obtain ⟨a, l0, s, y, hc1, hc2, ha, hy⟩ := plain_shape c (hinit c (List.mem_cons_self _ _))
    by_cases hcs : cs = []
    · subst hcs
      refine ⟨a, l0, s, y, by simp [folder_path, hc1], by rw [← hc1]; exact hc2, ha, hy⟩
    · have hd := (List.dropLast_append_getLast hcs).symm
      have hmem : cs.getLast hcs ∈ c :: cs :=
        List.mem_cons_of_mem _ (List.getLast_mem hcs)
      obtain ⟨_, _, s1, y1, -, hl2, -, hy1⟩ := plain_shape (cs.getLast hcs) (hinit _ hmem)
      have hfp : folder_path cs = folder_path cs.dropLast ++ 47 :: cs.getLast hcs := by
        conv_lhs => rw [hd]
        exact folder_path_concat _ _
      refine ⟨a, l0 ++ folder_path cs, (a :: l0) ++ folder_path cs.dropLast ++ 47 :: s1, y1,
        ?_, ?_, ha, hy1⟩
      · simp [folder_path, hc1]
      · rw [hfp, hl2]
        simp

/-- C22. SETPATH "ascend one level" (flags 0x03) in `phonebook_set_folder`,
for a current folder that is an absolute path of one or more non-empty
components without slashes, separated by single slashes, with no trailing
slash. The parent is the current folder without its last component and the
slash before it, and "/" when there is one component. With the new folder
name absent or empty the relative path computed is that parent, returned when
`is_dir` accepts it under the root folder and refused with -EBADR otherwise;
with a non-empty name it is `g_build_filename` of the parent and the name,
which for a name without slashes is the parent, one slash, and the name.
When the current folder is "/" the call stores -EBADR and returns NULL. -/
theorem setpath_ascend_one_level (pb : phonebook_env) (init : List (List Nat))
    (last : List Nat)
    (hinit : ∀ c ∈ init, c ≠ [] ∧ 47 ∉ c) (hlast : last ≠ [] ∧ 47 ∉ last) :
    folder_path (init ++ [last]) = folder_path init ++ 47 :: last ∧
    parent_path (init ++ [last]) = (if init = [] then [47] else folder_path init) ∧
    (∀ new_folder, new_folder = none ∨ new_folder = some [] →
      phonebook_set_folder pb (some (folder_path (init ++ [last]))) new_folder 0x03 =
        if pb.is_dir (g_build_filename
            (va_elements [pb.root_folder, some (parent_path (init ++ [last]))])) = true
        then set_folder_result.path (parent_path (init ++ [last])) none
        else set_folder_result.failed (some (-(EBADR : Int)))) ∧
    (∀ name, name ≠ [] →
      phonebook_set_folder pb (some (folder_path (init ++ [last]))) (some name) 0x03 =
        if pb.is_dir (g_build_filename (va_elements [pb.root_folder,
            some (g_build_filename [parent_path (init ++ [last]), name])])) = true
        then set_folder_result.path
          (g_build_filename [parent_path (init ++ [last]), name]) none
        else set_folder_result.failed (some (-(EBADR : Int)))) ∧
    (∀ name, name ≠ [] → 47 ∉ name →
      g_build_filename [parent_path (init ++ [last]), name] =
        if init = [] then 47 :: name else folder_path init ++ 47 :: name) ∧
    (∀ new_folder,
      phonebook_set_folder pb (some [47]) new_folder 0x03 =
        set_folder_result.failed (some (-(EBADR : Int)))) := by
  refine ⟨folder_path_concat init last, parent_path_concat init last, ?_, ?_, ?_, ?_⟩
  · intro new_folder hnf
    rw [set_folder_up_eq pb init last new_folder hlast]
    rcases hnf with h | h
    · subst h
      simp only [set_folder_done]
      by_cases hd : pb.is_dir (g_build_filename
          (va_elements [pb.root_folder, some (parent_path (init ++ [last]))])) = true
      · simp [hd]
      · simp [hd]
    · subst h
      simp only [set_folder_done, if_true]
      by_cases hd : pb.is_dir (g_build_filename
          (va_elements [pb.root_folder, some (parent_path (init ++ [last]))])) = true
      · simp [hd]
      · simp [hd]
  · intro name hname
    rw [set_folder_up_eq pb init last (some name) hlast]
    simp only [if_neg hname, set_folder_done]
    by_cases hd : pb.is_dir (g_build_filename (va_elements [pb.root_folder,
        some (g_build_filename [parent_path (init ++ [last]), name])])) = true
    · simp [hd]
    · simp [hd]
  · intro name hname hslash
    obtain ⟨b, m, s, y, hn1, hn2, hb, hy⟩ := plain_shape name ⟨hname, hslash⟩
    rw [parent_path_concat]
    by_cases hi : init = []
    · rw [if_pos hi, if_pos hi, hn1]
      exact build_filename_root b y m s (by rw [← hn1]; exact hn2) hb hy
    · rw [if_neg hi, if_neg hi]
      obtain ⟨a, l, u, x, hf, hfl, ha, hx⟩ := folder_path_shape init hi hinit
      rw [hf, hn1]
      exact build_filename_two a b x y l u m s hfl (by rw [← hn1]; exact hn2) ha hx hb hy
  · intro new_folder
    simp [phonebook_set_folder, set_folder_done]

/-- C22 at the current folder "/telecom/pb": with no name the path returned
is "/telecom", with the name "x" it is "/telecom/x". -/
theorem setpath_ascend_one_level_witness :
    phonebook_set_folder sample_phonebook (some (ascii "/telecom/pb")) none 0x03 =
      set_folder_result.path (ascii "/telecom") none ∧
    phonebook_set_folder sample_phonebook (some (ascii "/telecom/pb")) (some (ascii "x")) 0x03 =
      set_folder_result.path (ascii "/telecom/x") none :=
  have h := setpath_ascend_one_level sample_phonebook [ascii "telecom"] (ascii "pb")
    (by decide) (by decide)
  ⟨h.2.2.1 none (Or.inl rfl), h.2.2.2.1 (ascii "x") (by decide)⟩

end Obexd
